import Mathlib

/-!
# bp2build/conversion.go: file assembly, attribute filter and identifier canonicalizer

A shallow embedding of `src/bp2build/conversion.go`.

* Go strings are embedded as Lean `String`s.  Concatenation is `++`, comparison is the
  lexicographic order of the character sequences (for well-formed UTF-8 this is the
  byte order Go uses).
* A Go `map[string]V` is embedded as an association list `List (String × V)` whose keys are
  pairwise distinct; the order of the list is the order in which `range` enumerates the map.
* Types, constants and helpers that `conversion.go` uses but that live in other files
  (`BazelTargets` and its methods, `RuleShim`, `GeneratedBuildFileName`, `soongModuleLoad`,
  `providersBzl`, `generateSoongModuleBzl`, the toolchain and API-level dumps, the JSON
  encoder, `proptools.HasTag`) are parameters of the embedding.
* A `panic` is the error result of an `Except`.
-/

namespace Bp2build

/-! ## Go primitives -/

/-- Go `strings.HasSuffix`:
`len(s) >= len(suffix) && s[len(s)-len(suffix):] == suffix`. -/
def HasSuffix (s suffix : String) : Bool :=
  decide (suffix.length ≤ s.length) && (s.data.drop (s.length - suffix.length) == suffix.data)

/-- Go map indexing `m[key]`: the value stored under `key`, or the zero value of the value
type when the key is absent. -/
def mapIndex {V : Type} (zero : V) : List (String × V) → String → V
  | [], _ => zero
  | (k, v) :: rest, key => if key = k then v else mapIndex zero rest key

/-- Keys of a map, in enumeration order. -/
def mapKeys {V : Type} (m : List (String × V)) : List String :=
  m.map Prod.fst

/-- The association list represents a Go map: no key occurs twice. -/
def KeyDistinct {V : Type} (m : List (String × V)) : Prop :=
  (mapKeys m).Nodup

instance keyDistinct_decidable {V : Type} (m : List (String × V)) : Decidable (KeyDistinct m) :=
  inferInstanceAs (Decidable (mapKeys m).Nodup)

/-- Go `a <= b` on strings: lexicographic comparison of the character sequences. -/
def stringLE (a b : String) : Prop :=
  a.data ≤ b.data

instance stringLE_decidable : DecidableRel stringLE :=
  fun a b => inferInstanceAs (Decidable (a.data ≤ b.data))

/-! ## Attribute filter (`conversion.go` lines 144-162) -/

/-- Certain module property names are blocklisted/ignored. -/
def ignoredPropNames : List (String × Bool) :=
  [ ("name", true),        -- redundant, since this is explicitly generated for every target
    ("from", true),        -- reserved keyword
    ("in", true),          -- reserved keyword
    ("size", true),        -- reserved for tests
    ("arch", true),        -- interface prop type is not supported yet.
    ("multilib", true),    -- interface prop type is not supported yet.
    ("target", true),      -- interface prop type is not supported yet.
    ("visibility", true),  -- Bazel has native visibility semantics. Handle later.
    ("features", true),    -- There is already a built-in attribute features
    ("for", true) ]        -- reserved keyword, b/233579439

/-- Source: `return !ignoredPropNames[prop]`. -/
def shouldGenerateAttribute (prop : String) : Bool :=
  !(mapIndex false ignoredPropNames prop)

/-! ## Identifier canonicalizer (`conversion.go` lines 178-188) -/

/-- Rename `*_test` rules to `*_test_`. -/
def canonicalizeModuleType (moduleName : String) : String :=
  if HasSuffix moduleName "_test" then
    moduleName ++ "_"
  else
    moduleName

/-! ## Output files and the parameters of the embedding -/

/-- Source: `type BazelFile struct { Dir, Basename, Contents string }`. -/
structure BazelFile where
  Dir : String
  Basename : String
  Contents : String
deriving DecidableEq, Repr

/-- Source: `func newFile(dir, basename, content string) BazelFile`. -/
def newFile (dir basename content : String) : BazelFile :=
  ⟨dir, basename, content⟩

/-- Modelled from the spec: `CodegenMode` and its values `Bp2Build` and `QueryView` are
declared outside `conversion.go`.  The spec describes it as an enumerated value selecting
the fully generated tree (`Bp2Build`) or the mirror/inspection tree (`QueryView`); the Go
type is an integer type, so any further value is kept as `other`. -/
inductive CodegenMode where
  | Bp2Build
  | QueryView
  | other (code : Nat)
deriving DecidableEq, Repr

/-- The methods of `BazelTargets` that `createBuildFiles` calls.  The type `BazelTargets`
and these methods are declared outside `conversion.go`, so the collection type `T` and the
methods are parameters. -/
structure BazelTargetsOps (T : Type) where
  /-- The zero value of the collection type (what indexing a map yields for an absent key). -/
  zero : T
  /-- Method `targets.sort()`: the collection after sorting it in place. -/
  sort : T → T
  /-- Method `targets.hasHandcraftedTargets()`. -/
  hasHandcraftedTargets : T → Bool
  /-- Method `targets.LoadStatements()`. -/
  LoadStatements : T → String
  /-- Method `targets.String()`. -/
  String_ : T → String

/-- The constants and helpers declared outside `conversion.go` that the file assembler
uses; `R` is the type `RuleShim`. -/
structure Externals (R : Type) where
  GeneratedBuildFileName : String
  soongModuleLoad : String
  providersBzl : String
  /-- Field `ruleShim.content`. -/
  content : R → String
  /-- Helper `generateSoongModuleBzl(ruleShims)`. -/
  generateSoongModuleBzl : List (String × R) → String

/-- Source: `bazelRulesSubDir = "build/bazel/queryview_rules"`. -/
def bazelRulesSubDir : String := "build/bazel/queryview_rules"

/-- Source: `numAdditionalFiles = 5` (workspace file, base BUILD file, rules BUILD file,
rules providers.bzl file, rules soong_module.bzl file). -/
def numAdditionalFiles : Nat := 5

/-- Modelled from the spec: `android.SortedStringKeys` is declared outside `conversion.go`.
Per the spec, directories are ordered by lexicographic sort of their path string: the keys
of the map, sorted in increasing order. -/
def SortedStringKeys {V : Type} (m : List (String × V)) : List String :=
  (mapKeys m).insertionSort stringLE

/-! ## File assembler (`conversion.go` lines 56-122) -/

/-- The three advisory lines every Bp2Build file starts with (the raw string literal of
lines 95-98; it ends with a newline). -/
def bp2buildHeader : String :=
  "# READ THIS FIRST:\n# This file was automatically generated by bp2build for the Bazel migration project.\n# Feel free to edit or test it, but do *not* check it into your version control system.\n"

/-- The advisory comment of line 104. -/
def handcraftedComment : String :=
  "# This file contains generated targets and handcrafted targets that are manually managed in the source tree."

/-- The default visibility declaration of line 107. -/
def packageDecl : String :=
  "package(default_visibility = [\"//visibility:public\"])"

/-- The value of the variable `content` when control reaches line 114 (lines 93-113):
everything `createBuildFiles` puts in front of the separator and the serialized targets. -/
def preamble {T R : Type} (ops : BazelTargetsOps T) (ext : Externals R)
    (mode : CodegenMode) (targets : T) : String :=
  let content : String := ""
  if mode = CodegenMode.Bp2Build then
    let content := bp2buildHeader
    let content :=
      if ops.hasHandcraftedTargets targets then
        content ++ handcraftedComment
      else
        content ++ packageDecl
    let content := content ++ "\n"
    content ++ ops.LoadStatements targets
  else if mode = CodegenMode.QueryView then
    ext.soongModuleLoad
  else
    content

/-- The value of `content` passed to `newFile` on line 119 (lines 93-118). -/
def buildFileContents {T R : Type} (ops : BazelTargetsOps T) (ext : Externals R)
    (mode : CodegenMode) (targets : T) : String :=
  let content := preamble ops ext mode targets
  let content := if content ≠ "" then content ++ "\n\n" else content
  content ++ ops.String_ targets

/-- Source: `func createBuildFiles(buildToTargets map[string]BazelTargets, mode CodegenMode)`.
The loop runs over the sorted keys and appends one file per iteration. -/
def createBuildFiles {T R : Type} (ops : BazelTargetsOps T) (ext : Externals R)
    (buildToTargets : List (String × T)) (mode : CodegenMode) : List BazelFile :=
  (SortedStringKeys buildToTargets).foldl
    (fun files dir =>
      let targets := ops.sort (mapIndex ops.zero buildToTargets dir)
      files ++ [newFile dir ext.GeneratedBuildFileName (buildFileContents ops ext mode targets)])
    []

/-- Source: `func CreateBazelFiles(cfg, ruleShims, buildToTargets, mode)`.  The list
`ruleShims` is the map in the order `range` enumerates it. -/
def CreateBazelFiles {Cfg T R : Type} (ops : BazelTargetsOps T) (ext : Externals R)
    (_cfg : Cfg) (ruleShims : List (String × R)) (buildToTargets : List (String × T))
    (mode : CodegenMode) : List BazelFile :=
  let files : List BazelFile := []
  let files :=
    if mode = CodegenMode.QueryView then
      -- Write top level WORKSPACE.
      let files := files ++ [newFile "" "WORKSPACE" ""]
      -- Used to denote that the top level directory is a package.
      let files := files ++ [newFile "" ext.GeneratedBuildFileName ""]
      let files := files ++ [newFile bazelRulesSubDir ext.GeneratedBuildFileName ""]
      -- These files are only used for queryview.
      let files := files ++ [newFile bazelRulesSubDir "providers.bzl" ext.providersBzl]
      let files := ruleShims.foldl
        (fun files shim =>
          files ++ [newFile bazelRulesSubDir (shim.1 ++ ".bzl") (ext.content shim.2)])
        files
      files ++ [newFile bazelRulesSubDir "soong_module.bzl" (ext.generateSoongModuleBzl ruleShims)]
    else
      files
  files ++ createBuildFiles ops ext buildToTargets mode

/-! ## A concrete instance of the parameters, used to run the embedding -/

/-- A small concrete target: a name, its serialized text, and whether it is handcrafted. -/
structure SampleTarget where
  name : String
  text : String
  handcrafted : Bool
deriving DecidableEq, Repr

/-- Concrete collection methods over `List SampleTarget`: sorting by name, a flag that is
set when some target is handcrafted, no load statements, and the targets' texts separated
by blank lines. -/
def sampleOps : BazelTargetsOps (List SampleTarget) where
  zero := []
  sort := fun ts => ts.insertionSort (fun a b => stringLE a.name b.name)
  hasHandcraftedTargets := fun ts => ts.any (fun t => t.handcrafted)
  LoadStatements := fun _ => ""
  String_ := fun ts => "\n\n".intercalate (ts.map (fun t => t.text))

/-- Concrete constants: rule shims are their own content. -/
def sampleExt : Externals String where
  GeneratedBuildFileName := "BUILD.bazel"
  soongModuleLoad := "load(\"//build/bazel/queryview_rules:soong_module.bzl\", \"soong_module\")"
  providersBzl := "SoongModuleInfo = provider()"
  content := fun shim => shim
  generateSoongModuleBzl := fun _ => "soong_module = rule()"

/-- A map with three directories, enumerated out of order: an empty collection, a
collection with a handcrafted target under the root directory, and a collection whose two
targets are stored in decreasing name order. -/
def sampleMap : List (String × List SampleTarget) :=
  [ ("b", []),
    ("", [⟨"x", "rule(x)", true⟩]),
    ("a/c", [⟨"z", "rule(z)", false⟩, ⟨"y", "rule(y)", false⟩]) ]

/-- Two rule shims. -/
def sampleShims : List (String × String) :=
  [("cc_library", "cc_library = rule()"), ("java_library", "java_library = rule()")]

/-! ## Struct-field filter (`conversion.go` lines 164-176) -/

/-- Go `reflect.StructField`, with the fields `shouldSkipStructField` and the tag lookup
read: the field name, the package path (empty for an exported field), the tag string and
the embedded-field flag. -/
structure StructField where
  Name : String
  PkgPath : String
  Tag : String
  Anonymous : Bool
deriving DecidableEq, Repr

/-- Source: `func shouldSkipStructField(field reflect.StructField) bool`.  The library
function `proptools.HasTag` is the parameter `HasTag`. -/
def shouldSkipStructField (HasTag : StructField → String → String → Bool)
    (field : StructField) : Bool :=
  if field.PkgPath ≠ "" && !field.Anonymous then
    -- Skip unexported fields.
    true
  else if HasTag field "blueprint" "mutated" then
    -- fields with the tag are exported for mutators but cannot be set in a .bp file
    true
  else
    false

/-- A concrete tag lookup for running the embedding: the tag string is exactly
`key:"value"`. -/
def sampleHasTag (field : StructField) (key value : String) : Bool :=
  field.Tag == key ++ ":\"" ++ value ++ "\""

/-! ## Injected files (`conversion.go` lines 23-54) -/

/-- Go `strings.Join`: the elements separated by `sep`; nothing for no element, the element
itself for one. -/
def stringsJoin : List String → String → String
  | [], _ => ""
  | [a], _ => a
  | a :: b :: rest, sep => a ++ sep ++ stringsJoin (b :: rest) sep

/-- Source: `func convertedModules(convertedModules []string) string`. -/
def convertedModules (convertedModules : List String) : String :=
  stringsJoin convertedModules "\n"

/-- The struct `CodegenMetrics` is declared outside `conversion.go`; the one field the file
reads is `convertedModules`. -/
structure CodegenMetrics where
  convertedModules : List String
deriving DecidableEq, Repr

/-- The functions and constants declared outside `conversion.go` that
`CreateSoongInjectionFiles` calls.  `Cfg` is `android.Config`, `A` the type of the
API-levels table and `Err` the type of encoding errors; `jsonMarshal` is `json.Marshal`
on that table, a step that may fail. -/
structure InjectionDeps (Cfg A Err : Type) where
  GeneratedBuildFileName : String
  BazelCcToolchainVars : Cfg → String
  BazelJavaToolchainVars : Cfg → String
  BazelApexToolchainVars : String
  /-- The call `cfg.Bp2buildSoongConfigDefinitions.String()`. -/
  Bp2buildSoongConfigDefinitions : Cfg → String
  StarlarkArchConfigurations : String
  GetApiLevelsMap : Cfg → A
  jsonMarshal : A → Except Err String
  StarlarkApiLevelConfigs : Cfg → String

/-- Source: `func CreateSoongInjectionFiles(cfg android.Config, metrics CodegenMetrics)`.
A `panic(err)` is the result `Except.error err`: the run stops and no list is returned. -/
def CreateSoongInjectionFiles {Cfg A Err : Type} (deps : InjectionDeps Cfg A Err)
    (cfg : Cfg) (metrics : CodegenMetrics) : Except Err (List BazelFile) :=
  let files : List BazelFile := []
  -- Creates a //cc_toolchain package.
  let files := files ++ [newFile "cc_toolchain" deps.GeneratedBuildFileName ""]
  let files := files ++ [newFile "cc_toolchain" "constants.bzl" (deps.BazelCcToolchainVars cfg)]
  -- Creates a //java_toolchain package.
  let files := files ++ [newFile "java_toolchain" deps.GeneratedBuildFileName ""]
  let files :=
    files ++ [newFile "java_toolchain" "constants.bzl" (deps.BazelJavaToolchainVars cfg)]
  -- Creates a //apex_toolchain package.
  let files := files ++ [newFile "apex_toolchain" deps.GeneratedBuildFileName ""]
  let files := files ++ [newFile "apex_toolchain" "constants.bzl" deps.BazelApexToolchainVars]
  let files :=
    files ++ [newFile "metrics" "converted_modules.txt"
      (stringsJoin metrics.convertedModules "\n")]
  let files :=
    files ++ [newFile "product_config" "soong_config_variables.bzl"
      (deps.Bp2buildSoongConfigDefinitions cfg)]
  let files :=
    files ++ [newFile "product_config" "arch_configuration.bzl" deps.StarlarkArchConfigurations]
  match deps.jsonMarshal (deps.GetApiLevelsMap cfg) with
  | Except.error err => Except.error err
  | Except.ok apiLevelsContent =>
    let files :=
      files ++ [newFile "api_levels" deps.GeneratedBuildFileName
        "exports_files([\"api_levels.json\"])"]
    let files := files ++ [newFile "api_levels" "api_levels.json" apiLevelsContent]
    let files :=
      files ++ [newFile "api_levels" "api_levels.bzl" (deps.StarlarkApiLevelConfigs cfg)]
    Except.ok files

/-- Concrete injected-file dependencies for running the embedding: the configuration is a
number, the API-levels table a list of numbers, and encoding fails on the empty table. -/
def sampleDeps : InjectionDeps Nat (List Nat) String where
  GeneratedBuildFileName := "BUILD.bazel"
  BazelCcToolchainVars := fun _ => "cc = 1"
  BazelJavaToolchainVars := fun _ => "java = 1"
  BazelApexToolchainVars := "apex = 1"
  Bp2buildSoongConfigDefinitions := fun _ => "soong_config_bool_variables = 1"
  StarlarkArchConfigurations := "arch = 1"
  GetApiLevelsMap := fun cfg => List.replicate cfg 0
  jsonMarshal := fun table => if table = [] then Except.error "empty table" else Except.ok "[0]"
  StarlarkApiLevelConfigs := fun _ => "api_levels = 1"

/-! ## Target collections as the spec describes them -/

/-- Modelled from the spec: the type `BazelTarget` is declared outside `conversion.go`.  Per
the spec a Target is a named entity; here it carries its name and its serialized text. -/
structure BazelTarget where
  name : String
  content : String
deriving DecidableEq, Repr

/-- Modelled from the spec: the type `BazelTargets` is declared outside `conversion.go`.
Per the spec a Target Collection is an ordered, per-directory set of Targets plus a boolean
flag "contains hand-maintained entries". -/
structure BazelTargets where
  targets : List BazelTarget
  handcrafted : Bool
deriving DecidableEq, Repr

/-- Modelled from the spec: the method `BazelTargets.sort` is declared outside
`conversion.go`.  Per the spec, targets within a collection are ordered by lexicographic
sort of target name. -/
def BazelTargets.sort (ts : BazelTargets) : BazelTargets :=
  ⟨ts.targets.insertionSort (fun a b => stringLE a.name b.name), ts.handcrafted⟩

/-- Modelled from the spec: the methods of `BazelTargets` that `createBuildFiles` calls, with
`sort` ordering by name and `hasHandcraftedTargets` reading the collection's flag.  How the
ordered targets are serialized (`serialize`) and which load statements they need (`loads`)
is left open by the spec and stays a parameter. -/
def specTargetsOps (serialize loads : List BazelTarget → String) :
    BazelTargetsOps BazelTargets where
  zero := ⟨[], false⟩
  sort := BazelTargets.sort
  hasHandcraftedTargets := fun ts => ts.handcrafted
  LoadStatements := fun ts => loads ts.targets
  String_ := fun ts => serialize ts.targets

/-- A concrete serialization for running the embedding: the targets' texts separated by
blank lines. -/
def sampleSerialize (ts : List BazelTarget) : String :=
  "\n\n".intercalate (ts.map (fun t => t.content))

/-- Concrete load statements for running the embedding: one load line when the collection
has a target, none otherwise. -/
def sampleLoads (ts : List BazelTarget) : String :=
  if ts.isEmpty then "" else "load(\"//build/bazel/rules:cc.bzl\", \"cc_library\")"

/-- The text consists of comment lines only: every line of it starts with `#` (the first
argument says whether the next character starts a line). -/
def onlyCommentLines : Bool → List Char → Bool
  | _, [] => true
  | true, c :: rest => c == '#' && onlyCommentLines false rest
  | false, c :: rest => onlyCommentLines (c == '\n') rest

/-! ## Facts about the Go primitives -/

theorem hasSuffix_iff_data (s suffix : String) :
    HasSuffix s suffix = true ↔ ∃ l : List Char, s.data = l ++ suffix.data := by
  unfold HasSuffix
  simp only [Bool.and_eq_true, decide_eq_true_eq, beq_iff_eq, String.length]
  constructor
  · rintro ⟨_, h⟩
    refine ⟨s.data.take (s.data.length - suffix.data.length), ?_⟩
    have e := (List.take_append_drop (s.data.length - suffix.data.length) s.data).symm
    rwa [h] at e
  · rintro ⟨l, h⟩
    rw [h]
    simp

/-- The function `HasSuffix` holds exactly when the string is some string followed by the
suffix. -/
theorem hasSuffix_iff (s suffix : String) :
    HasSuffix s suffix = true ↔ ∃ t : String, s = t ++ suffix := by
  rw [hasSuffix_iff_data]
  constructor
  · rintro ⟨l, h⟩
    exact ⟨⟨l⟩, String.ext (by simpa using h)⟩
  · rintro ⟨t, rfl⟩
    exact ⟨t.data, by simp⟩

theorem hasSuffix_false_iff (s suffix : String) :
    HasSuffix s suffix = false ↔ ¬ ∃ t : String, s = t ++ suffix := by
  rw [← hasSuffix_iff]
  cases HasSuffix s suffix <;> simp

/-- A string with `"_"` appended never ends with `"_test"`. -/
theorem hasSuffix_test_append_underscore (s : String) :
    HasSuffix (s ++ "_") "_test" = false := by
  rw [hasSuffix_false_iff]
  rintro ⟨t, h⟩
  have h2 := congrArg (fun x : String => x.data.getLast?) h
  simp only [String.data_append] at h2
  have e2 : t.data ++ ['_', 't', 'e', 's', 't'] = (t.data ++ ['_', 't', 'e', 's']) ++ ['t'] := by
    simp
  rw [e2, List.getLast?_concat, List.getLast?_concat] at h2
  exact absurd h2 (by decide)

/-! ## Facts about maps and sorted keys -/

theorem stringLE_iff_le (a b : String) : stringLE a b ↔ a ≤ b :=
  String.le_iff_toList_le.symm

theorem stringLE_isTotal : IsTotal String stringLE :=
  ⟨fun a b => by simpa only [stringLE_iff_le] using le_total a b⟩

theorem stringLE_isTrans : IsTrans String stringLE :=
  ⟨fun a b c hab hbc => by
    rw [stringLE_iff_le] at *
    exact le_trans hab hbc⟩

theorem stringLE_isAntisymm : IsAntisymm String stringLE :=
  ⟨fun a b hab hba => by
    rw [stringLE_iff_le] at *
    exact le_antisymm hab hba⟩

theorem sortedStringKeys_perm {V : Type} (m : List (String × V)) :
    (SortedStringKeys m).Perm (mapKeys m) :=
  List.perm_insertionSort stringLE (mapKeys m)

theorem sortedStringKeys_sorted {V : Type} (m : List (String × V)) :
    (SortedStringKeys m).Sorted stringLE := by
  haveI := stringLE_isTotal
  haveI := stringLE_isTrans
  exact List.sorted_insertionSort stringLE (mapKeys m)

theorem sortedStringKeys_length {V : Type} (m : List (String × V)) :
    (SortedStringKeys m).length = m.length := by
  rw [(sortedStringKeys_perm m).length_eq, mapKeys, List.length_map]

theorem sortedStringKeys_mem {V : Type} (m : List (String × V)) (k : String) :
    k ∈ SortedStringKeys m ↔ k ∈ mapKeys m :=
  (sortedStringKeys_perm m).mem_iff

/-- On a key-distinct map the sorted keys are strictly increasing. -/
theorem sortedStringKeys_strict {V : Type} (m : List (String × V)) (hm : KeyDistinct m) :
    (SortedStringKeys m).Sorted (fun a b : String => a < b) := by
  have hs := sortedStringKeys_sorted m
  have hn : (SortedStringKeys m).Nodup := (sortedStringKeys_perm m).nodup_iff.2 hm
  unfold List.Sorted at *
  have hboth := hs.and hn
  exact hboth.imp (fun h => lt_of_le_of_ne ((stringLE_iff_le _ _).1 h.1) h.2)

/-- Two enumerations of one map have the same sorted keys. -/
theorem sortedStringKeys_of_perm {V : Type} {m₁ m₂ : List (String × V)} (h : m₁.Perm m₂) :
    SortedStringKeys m₁ = SortedStringKeys m₂ := by
  haveI := stringLE_isAntisymm
  apply List.eq_of_perm_of_sorted _ (sortedStringKeys_sorted m₁) (sortedStringKeys_sorted m₂)
  exact (sortedStringKeys_perm m₁).trans ((h.map Prod.fst).trans (sortedStringKeys_perm m₂).symm)

/-- Indexing a key-distinct map at one of its keys yields the value stored there. -/
theorem mapIndex_of_mem {V : Type} (zero : V) (m : List (String × V)) (hm : KeyDistinct m)
    (k : String) (v : V) (h : (k, v) ∈ m) : mapIndex zero m k = v := by
  induction m with
  | nil => simp at h
  | cons kv rest ih =>
    obtain ⟨k0, v0⟩ := kv
    have hm2 : k0 ∉ mapKeys rest ∧ KeyDistinct rest := by
      simpa [KeyDistinct, mapKeys] using hm
    rcases List.mem_cons.1 h with heq | hmem
    · cases heq
      simp [mapIndex]
    · have hne : k ≠ k0 := by
        rintro rfl
        exact hm2.1 (List.mem_map_of_mem Prod.fst hmem)
      simp only [mapIndex, if_neg hne]
      exact ih hm2.2 hmem

/-- Indexing does not depend on the order in which a key-distinct map is enumerated. -/
theorem mapIndex_of_perm {V : Type} (zero : V) {m₁ m₂ : List (String × V)} (h : m₁.Perm m₂)
    (hm : KeyDistinct m₁) (k : String) : mapIndex zero m₁ k = mapIndex zero m₂ k := by
  induction h with
  | nil => rfl
  | cons x _ ih =>
    obtain ⟨k0, v0⟩ := x
    have hm2 : KeyDistinct _ := (List.nodup_cons.1 hm).2
    simp only [mapIndex, ih hm2]
  | swap x y l =>
    obtain ⟨kx, vx⟩ := x
    obtain ⟨ky, vy⟩ := y
    have hne : ky ≠ kx := by
      have := (List.nodup_cons.1 hm).1
      simp only [mapKeys, List.map_cons, List.mem_cons, not_or] at this
      exact this.1
    simp only [mapIndex]
    by_cases h1 : k = kx
    · have h2 : k ≠ ky := fun e => hne (e.symm.trans h1)
      simp [h1, h2, Ne.symm hne]
    · simp [h1]
  | trans h₁ _ ih₁ ih₂ =>
    have hm2 : KeyDistinct _ := (h₁.map Prod.fst).nodup_iff.1 hm
    exact (ih₁ hm).trans (ih₂ hm2)

/-! ## Shape of the file assembler's loops -/

theorem foldl_append_singleton {α β : Type} (f : α → β) (l : List α) (init : List β) :
    l.foldl (fun acc x => acc ++ [f x]) init = init ++ l.map f := by
  induction l generalizing init with
  | nil => simp
  | cons x xs ih => simp [ih]

/-- The loop of `createBuildFiles` produces one file per sorted key, in that order. -/
theorem createBuildFiles_eq_map {T R : Type} (ops : BazelTargetsOps T) (ext : Externals R)
    (m : List (String × T)) (mode : CodegenMode) :
    createBuildFiles ops ext m mode =
      (SortedStringKeys m).map (fun dir =>
        newFile dir ext.GeneratedBuildFileName
          (buildFileContents ops ext mode (ops.sort (mapIndex ops.zero m dir)))) := by
  unfold createBuildFiles
  rw [foldl_append_singleton]
  simp

theorem createBuildFiles_dirs {T R : Type} (ops : BazelTargetsOps T) (ext : Externals R)
    (m : List (String × T)) (mode : CodegenMode) :
    (createBuildFiles ops ext m mode).map BazelFile.Dir = SortedStringKeys m := by
  rw [createBuildFiles_eq_map, List.map_map]
  exact (List.map_congr_left (fun _ _ => rfl)).trans (List.map_id _)

/-- Every entry of a key-distinct map gets the file built from its sorted collection. -/
theorem createBuildFiles_mem {T R : Type} (ops : BazelTargetsOps T) (ext : Externals R)
    (m : List (String × T)) (mode : CodegenMode) (hm : KeyDistinct m)
    (dir : String) (c : T) (h : (dir, c) ∈ m) :
    newFile dir ext.GeneratedBuildFileName (buildFileContents ops ext mode (ops.sort c))
      ∈ createBuildFiles ops ext m mode := by
  rw [createBuildFiles_eq_map]
  refine List.mem_map.2 ⟨dir, ?_, ?_⟩
  · exact (sortedStringKeys_mem m dir).2 (List.mem_map_of_mem Prod.fst h)
  · rw [mapIndex_of_mem ops.zero m hm dir c h]

/-- The output of `createBuildFiles` is the same for every enumeration of the map. -/
theorem createBuildFiles_of_perm {T R : Type} (ops : BazelTargetsOps T) (ext : Externals R)
    {m₁ m₂ : List (String × T)} (mode : CodegenMode) (h : m₁.Perm m₂) (hm : KeyDistinct m₁) :
    createBuildFiles ops ext m₁ mode = createBuildFiles ops ext m₂ mode := by
  rw [createBuildFiles_eq_map, createBuildFiles_eq_map, sortedStringKeys_of_perm h]
  refine List.map_congr_left (fun dir _ => ?_)
  rw [mapIndex_of_perm ops.zero h hm dir]

/-- Every file of the output carries the contents built from the collection stored under
its directory. -/
theorem createBuildFiles_contents {T R : Type} (ops : BazelTargetsOps T) (ext : Externals R)
    (m : List (String × T)) (mode : CodegenMode) (hm : KeyDistinct m)
    (f : BazelFile) (hf : f ∈ createBuildFiles ops ext m mode) (c : T) (h : (f.Dir, c) ∈ m) :
    f.Contents = buildFileContents ops ext mode (ops.sort c) := by
  rw [createBuildFiles_eq_map] at hf
  obtain ⟨d, _, rfl⟩ := List.mem_map.1 hf
  have hd : (d, c) ∈ m := h
  show buildFileContents ops ext mode (ops.sort (mapIndex ops.zero m d)) = _
  rw [mapIndex_of_mem ops.zero m hm d c hd]

/-- In QueryView mode the result is the four fixed files, one file per rule shim in
enumeration order, the module loader, and then the per-directory files. -/
theorem createBazelFiles_queryView_eq {Cfg T R : Type} (ops : BazelTargetsOps T)
    (ext : Externals R) (cfg : Cfg) (ruleShims : List (String × R)) (m : List (String × T)) :
    CreateBazelFiles ops ext cfg ruleShims m CodegenMode.QueryView =
      [newFile "" "WORKSPACE" "", newFile "" ext.GeneratedBuildFileName "",
        newFile bazelRulesSubDir ext.GeneratedBuildFileName "",
        newFile bazelRulesSubDir "providers.bzl" ext.providersBzl] ++
      ruleShims.map (fun shim =>
        newFile bazelRulesSubDir (shim.1 ++ ".bzl") (ext.content shim.2)) ++
      [newFile bazelRulesSubDir "soong_module.bzl" (ext.generateSoongModuleBzl ruleShims)] ++
      createBuildFiles ops ext m CodegenMode.QueryView := by
  unfold CreateBazelFiles
  simp [foldl_append_singleton]

/-- In every other mode the result is exactly the per-directory files. -/
theorem createBazelFiles_other_eq {Cfg T R : Type} (ops : BazelTargetsOps T)
    (ext : Externals R) (cfg : Cfg) (ruleShims : List (String × R)) (m : List (String × T))
    (mode : CodegenMode) (hmode : mode ≠ CodegenMode.QueryView) :
    CreateBazelFiles ops ext cfg ruleShims m mode = createBuildFiles ops ext m mode := by
  unfold CreateBazelFiles
  simp [hmode]

/-! ## Facts about the preamble -/

theorem hasSuffix_newline_iff (s : String) :
    HasSuffix s "\n" = true ↔ s.data.getLast? = some '\n' := by
  rw [hasSuffix_iff_data]
  have e : ("\n" : String).data = ['\n'] := rfl
  rw [e]
  constructor
  · rintro ⟨l, h⟩
    rw [h, List.getLast?_concat]
  · intro h
    rcases List.eq_nil_or_concat s.data with hnil | ⟨l, a, hl⟩
    · rw [hnil] at h
      simp at h
    · rw [List.concat_eq_append] at hl
      rw [hl, List.getLast?_concat] at h
      cases h
      exact ⟨l, hl⟩

theorem string_data_ne_nil {s : String} (h : s ≠ "") : s.data ≠ [] := by
  intro e
  exact h (String.ext e)

/-- Appending a non-empty string decides whether the result ends with a newline. -/
theorem hasSuffix_newline_append (a b : String) (hb : b ≠ "") :
    HasSuffix (a ++ b) "\n" = HasSuffix b "\n" := by
  have h : (HasSuffix (a ++ b) "\n" = true) ↔ (HasSuffix b "\n" = true) := by
    rw [hasSuffix_newline_iff, hasSuffix_newline_iff, String.data_append,
      List.getLast?_append_of_ne_nil _ (string_data_ne_nil hb)]
  cases h1 : HasSuffix (a ++ b) "\n" <;> cases h2 : HasSuffix b "\n" <;> simp_all

theorem string_append_ne_empty_left (a b : String) (ha : a ≠ "") : a ++ b ≠ "" := by
  intro h
  have h2 := congrArg String.data h
  rw [String.data_append] at h2
  exact string_data_ne_nil ha (List.append_eq_nil.1 h2).1

theorem bp2buildHeader_ne_empty : bp2buildHeader ≠ "" := by decide

/-- In Bp2Build mode the preamble is the header, one line, a newline and the load
statements. -/
theorem preamble_bp2build {T R : Type} (ops : BazelTargetsOps T) (ext : Externals R)
    (t : T) :
    preamble ops ext CodegenMode.Bp2Build t =
      (bp2buildHeader ++
        (if ops.hasHandcraftedTargets t then handcraftedComment else packageDecl) ++ "\n") ++
      ops.LoadStatements t := by
  unfold preamble
  cases ops.hasHandcraftedTargets t <;> simp

theorem preamble_bp2build_ne_empty {T R : Type} (ops : BazelTargetsOps T) (ext : Externals R)
    (t : T) : preamble ops ext CodegenMode.Bp2Build t ≠ "" := by
  rw [preamble_bp2build, String.append_assoc, String.append_assoc]
  exact string_append_ne_empty_left _ _ bp2buildHeader_ne_empty

theorem preamble_queryView {T R : Type} (ops : BazelTargetsOps T) (ext : Externals R)
    (t : T) : preamble ops ext CodegenMode.QueryView t = ext.soongModuleLoad := by
  simp [preamble]

theorem preamble_other {T R : Type} (ops : BazelTargetsOps T) (ext : Externals R)
    (mode : CodegenMode) (t : T) (h1 : mode ≠ CodegenMode.Bp2Build)
    (h2 : mode ≠ CodegenMode.QueryView) : preamble ops ext mode t = "" := by
  simp [preamble, h1, h2]

theorem buildFileContents_of_ne_empty {T R : Type} (ops : BazelTargetsOps T)
    (ext : Externals R) (mode : CodegenMode) (t : T) (h : preamble ops ext mode t ≠ "") :
    buildFileContents ops ext mode t = preamble ops ext mode t ++ "\n\n" ++ ops.String_ t := by
  simp [buildFileContents, h]

theorem buildFileContents_of_empty {T R : Type} (ops : BazelTargetsOps T)
    (ext : Externals R) (mode : CodegenMode) (t : T) (h : preamble ops ext mode t = "") :
    buildFileContents ops ext mode t = ops.String_ t := by
  simp [buildFileContents, h]

set_option maxRecDepth 100000 in
/-- The header consists of three lines, each ended by a newline. -/
theorem bp2buildHeader_lines :
    bp2buildHeader.data.count '\n' = 3 ∧ HasSuffix bp2buildHeader "\n" = true := by
  decide

set_option maxRecDepth 100000 in
/-- The advisory comment and the visibility declaration are single lines. -/
theorem preamble_lines :
    handcraftedComment.data.count '\n' = 0 ∧ packageDecl.data.count '\n' = 0 := by
  decide

set_option maxRecDepth 100000 in
/-- The header followed by the advisory comment holds no default-visibility declaration. -/
theorem handcrafted_preamble_has_no_packageDecl :
    ¬ ("package(default_visibility".data <:+:
        (bp2buildHeader ++ handcraftedComment ++ "\n").data) := by
  decide

/-! ## Facts about string concatenation and joining -/

theorem string_append_right_cancel {a b c : String} (h : a ++ c = b ++ c) : a = b := by
  have h2 := congrArg String.data h
  rw [String.data_append, String.data_append] at h2
  exact String.ext (List.append_cancel_right h2)

/-- Joining a list that ends with `last` ends with `last`: no separator follows it. -/
theorem stringsJoin_concat (init : List String) (last sep : String) :
    stringsJoin (init ++ [last]) sep =
      if init = [] then last else stringsJoin init sep ++ sep ++ last := by
  induction init with
  | nil => simp [stringsJoin]
  | cons a rest ih =>
    cases rest with
    | nil => simp [stringsJoin]
    | cons b rest2 =>
      have ih2 : stringsJoin (b :: rest2 ++ [last]) sep =
          stringsJoin (b :: rest2) sep ++ sep ++ last := by simpa using ih
      have e : a :: b :: rest2 ++ [last] = a :: b :: (rest2 ++ [last]) := rfl
      rw [e, stringsJoin]
      have e2 : b :: (rest2 ++ [last]) = b :: rest2 ++ [last] := rfl
      rw [e2, ih2]
      simp [stringsJoin, String.append_assoc]

/-! ## Facts about the injected files -/

/-- When the encoding succeeds the result is the list of twelve files, in source order. -/
theorem createSoongInjectionFiles_of_ok {Cfg A Err : Type} (deps : InjectionDeps Cfg A Err)
    (cfg : Cfg) (metrics : CodegenMetrics) (text : String)
    (h : deps.jsonMarshal (deps.GetApiLevelsMap cfg) = Except.ok text) :
    CreateSoongInjectionFiles deps cfg metrics = Except.ok
      [ newFile "cc_toolchain" deps.GeneratedBuildFileName "",
        newFile "cc_toolchain" "constants.bzl" (deps.BazelCcToolchainVars cfg),
        newFile "java_toolchain" deps.GeneratedBuildFileName "",
        newFile "java_toolchain" "constants.bzl" (deps.BazelJavaToolchainVars cfg),
        newFile "apex_toolchain" deps.GeneratedBuildFileName "",
        newFile "apex_toolchain" "constants.bzl" deps.BazelApexToolchainVars,
        newFile "metrics" "converted_modules.txt" (stringsJoin metrics.convertedModules "\n"),
        newFile "product_config" "soong_config_variables.bzl"
          (deps.Bp2buildSoongConfigDefinitions cfg),
        newFile "product_config" "arch_configuration.bzl" deps.StarlarkArchConfigurations,
        newFile "api_levels" deps.GeneratedBuildFileName "exports_files([\"api_levels.json\"])",
        newFile "api_levels" "api_levels.json" text,
        newFile "api_levels" "api_levels.bzl" (deps.StarlarkApiLevelConfigs cfg) ] := by
  unfold CreateSoongInjectionFiles
  rw [h]
  rfl

/-- When the encoding fails the run aborts with the encoding error. -/
theorem createSoongInjectionFiles_of_error {Cfg A Err : Type} (deps : InjectionDeps Cfg A Err)
    (cfg : Cfg) (metrics : CodegenMetrics) (err : Err)
    (h : deps.jsonMarshal (deps.GetApiLevelsMap cfg) = Except.error err) :
    CreateSoongInjectionFiles deps cfg metrics = Except.error err := by
  unfold CreateSoongInjectionFiles
  rw [h]

/-! ## Facts about collections sorted by name -/

theorem bazelTargets_sort_perm (c : BazelTargets) : c.sort.targets.Perm c.targets :=
  List.perm_insertionSort _ _

theorem bazelTargets_sort_sorted (c : BazelTargets) :
    c.sort.targets.Sorted (fun a b => stringLE a.name b.name) := by
  haveI : IsTotal BazelTarget (fun a b => stringLE a.name b.name) :=
    ⟨fun a b => stringLE_isTotal.total a.name b.name⟩
  haveI : IsTrans BazelTarget (fun a b => stringLE a.name b.name) :=
    ⟨fun a b c hab hbc => stringLE_isTrans.trans a.name b.name c.name hab hbc⟩
  exact List.sorted_insertionSort _ _

/-- The names of a sorted collection are in increasing order. -/
theorem bazelTargets_sort_names_sorted (c : BazelTargets) :
    (c.sort.targets.map BazelTarget.name).Sorted (fun a b : String => a ≤ b) := by
  have h := bazelTargets_sort_sorted c
  unfold List.Sorted at *
  rw [List.pairwise_map]
  exact h.imp (fun hab => (stringLE_iff_le _ _).1 hab)

/-- With pairwise distinct names, sorting by name forgets the order of the input. -/
theorem bazelTargets_sort_of_perm (c c2 : BazelTargets) (hp : c2.targets.Perm c.targets)
    (hf : c2.handcrafted = c.handcrafted) (hn : (c.targets.map BazelTarget.name).Nodup) :
    c2.sort = c.sort := by
  have hperm : c2.sort.targets.Perm c.sort.targets :=
    (bazelTargets_sort_perm c2).trans (hp.trans (bazelTargets_sort_perm c).symm)
  have hn1 : (c.sort.targets.map BazelTarget.name).Nodup :=
    ((bazelTargets_sort_perm c).map _).nodup_iff.2 hn
  have hn2 : (c2.sort.targets.map BazelTarget.name).Nodup :=
    (hperm.map _).nodup_iff.2 hn1
  have strict : ∀ l : List BazelTarget, l.Sorted (fun a b => stringLE a.name b.name) →
      (l.map BazelTarget.name).Nodup →
      l.Sorted (fun a b => stringLE a.name b.name ∧ (a.name = b.name → a = b)) := by
    intro l hs hnd
    unfold List.Sorted List.Nodup at *
    rw [List.pairwise_map] at hnd
    exact (hs.and hnd).imp (fun h => ⟨h.1, fun e => absurd e h.2⟩)
  haveI : IsAntisymm BazelTarget
      (fun a b => stringLE a.name b.name ∧ (a.name = b.name → a = b)) :=
    ⟨fun a b hab hba => hab.2 (stringLE_isAntisymm.antisymm _ _ hab.1 hba.1)⟩
  have heq : c2.sort.targets = c.sort.targets :=
    List.eq_of_perm_of_sorted hperm (strict _ (bazelTargets_sort_sorted c2) hn2)
      (strict _ (bazelTargets_sort_sorted c) hn1)
  have hflag : c2.sort.handcrafted = c.sort.handcrafted := hf
  cases hc : c.sort
  cases hc2 : c2.sort
  rw [hc] at heq hflag
  rw [hc2] at heq hflag
  simp only at heq hflag
  rw [heq, hflag]

set_option maxRecDepth 100000 in
/-- The header followed by the advisory comment and a newline is four comment lines. -/
theorem handcrafted_preamble_onlyCommentLines :
    onlyCommentLines true (bp2buildHeader ++ handcraftedComment ++ "\n").data = true := by
  decide

/-! ## Facts about the (Dir, Basename) pairs of the output -/

theorem createBuildFiles_paths {T R : Type} (ops : BazelTargetsOps T) (ext : Externals R)
    (m : List (String × T)) (mode : CodegenMode) :
    (createBuildFiles ops ext m mode).map (fun f => (f.Dir, f.Basename)) =
      (SortedStringKeys m).map (fun d => (d, ext.GeneratedBuildFileName)) := by
  rw [createBuildFiles_eq_map, List.map_map]
  rfl

theorem createBuildFiles_paths_nodup {T R : Type} (ops : BazelTargetsOps T)
    (ext : Externals R) (m : List (String × T)) (mode : CodegenMode) (hm : KeyDistinct m) :
    ((createBuildFiles ops ext m mode).map (fun f => (f.Dir, f.Basename))).Nodup := by
  rw [createBuildFiles_paths]
  have hn : (SortedStringKeys m).Nodup := (sortedStringKeys_perm m).nodup_iff.2 hm
  exact hn.map (fun a b hab => (Prod.mk.inj hab).1)

theorem bzl_name_ne_of_not_hasSuffix {g : String} (hg : HasSuffix g ".bzl" = false)
    (k : String) : k ++ ".bzl" ≠ g := by
  intro e
  rw [(hasSuffix_iff g ".bzl").2 ⟨k, e.symm⟩] at hg
  exact absurd hg (by decide)

/-- In QueryView mode the pairs are distinct when no directory and no rule shim uses one of
the names of the fixed files. -/
theorem createBazelFiles_queryView_paths_nodup {Cfg T R : Type} (ops : BazelTargetsOps T)
    (ext : Externals R) (cfg : Cfg) (ruleShims : List (String × R)) (m : List (String × T))
    (hs : KeyDistinct ruleShims) (hm : KeyDistinct m)
    (h1 : "" ∉ mapKeys m) (h2 : bazelRulesSubDir ∉ mapKeys m)
    (h3 : "providers" ∉ mapKeys ruleShims) (h4 : "soong_module" ∉ mapKeys ruleShims)
    (h5 : ext.GeneratedBuildFileName ≠ "WORKSPACE")
    (h6 : HasSuffix ext.GeneratedBuildFileName ".bzl" = false) :
    ((CreateBazelFiles ops ext cfg ruleShims m CodegenMode.QueryView).map
      (fun f => (f.Dir, f.Basename))).Nodup := by
  rw [createBazelFiles_queryView_eq]
  simp only [List.map_append, List.map_cons, List.map_nil, List.map_map, createBuildFiles_paths]
  have hshims : (List.map ((fun f : BazelFile => (f.Dir, f.Basename)) ∘ fun shim : String × R =>
      newFile bazelRulesSubDir (shim.1 ++ ".bzl") (ext.content shim.2)) ruleShims) =
      (mapKeys ruleShims).map (fun k => (bazelRulesSubDir, k ++ ".bzl")) := by
    simp [mapKeys, newFile, Function.comp_def]
  rw [hshims]
  have hkeys : ∀ d, d ∈ SortedStringKeys m ↔ d ∈ mapKeys m := sortedStringKeys_mem m
  have hn : (SortedStringKeys m).Nodup := (sortedStringKeys_perm m).nodup_iff.2 hm
  have g1 := bzl_name_ne_of_not_hasSuffix h6
  have g1s : ∀ k : String, ext.GeneratedBuildFileName ≠ k ++ ".bzl" := fun k => (g1 k).symm
  have g2 : ext.GeneratedBuildFileName ≠ "providers.bzl" := (g1 "providers").symm
  have g3 : ext.GeneratedBuildFileName ≠ "soong_module.bzl" := (g1 "soong_module").symm
  have h5s : "WORKSPACE" ≠ ext.GeneratedBuildFileName := h5.symm
  have e0 : bazelRulesSubDir ≠ "" := by decide
  have e0s : "" ≠ bazelRulesSubDir := by decide
  have hp : ∀ a ∈ mapKeys ruleShims, a ++ ".bzl" ≠ "providers.bzl" := by
    intro a ha e
    have e2 : a ++ ".bzl" = "providers" ++ ".bzl" := e
    exact h3 (string_append_right_cancel e2 ▸ ha)
  have hsm : ∀ a ∈ mapKeys ruleShims, a ++ ".bzl" ≠ "soong_module.bzl" := by
    intro a ha e
    have e2 : a ++ ".bzl" = "soong_module" ++ ".bzl" := e
    exact h4 (string_append_right_cancel e2 ▸ ha)
  have nshims : (List.map (fun k => (bazelRulesSubDir, k ++ ".bzl")) (mapKeys ruleShims)).Nodup :=
    List.Nodup.map (fun a b hab => string_append_right_cancel (Prod.mk.inj hab).2) hs
  have nkeys : (List.map (fun d => (d, ext.GeneratedBuildFileName)) (SortedStringKeys m)).Nodup :=
    hn.map (fun a b hab => (Prod.mk.inj hab).1)
  simp only [newFile]
  simp only [List.nodup_cons, List.nodup_append, List.mem_cons, List.mem_append, List.mem_map,
    Prod.mk.injEq, List.singleton_append, List.cons_append, List.nil_append, hkeys,
    List.disjoint_left, List.not_mem_nil, List.nodup_nil, nshims, nkeys]
  simp [e0, e0s, g2, g3, h5s, h5, g1, g1s]
  refine ⟨h1, h2, hp, hsm, ?_⟩
  rintro a b (⟨k, _, rfl, rfl⟩ | ⟨rfl, rfl⟩) x _ _
  · exact g1s k
  · exact g3

/-! ## Attribute filter -/

/-- C1: `shouldGenerateAttribute p` is false exactly when `p` is one of the ten blocklisted
names, and true for every other string, among them the empty string and names that differ
from a blocklisted one only in case. -/
theorem shouldGenerateAttribute_false_iff_blocklisted :
    (∀ p : String,
      (shouldGenerateAttribute p = false ↔
        p ∈ ["name", "from", "in", "size", "arch", "multilib", "target", "visibility",
              "features", "for"]) ∧
      (shouldGenerateAttribute p = true ↔
        p ∉ ["name", "from", "in", "size", "arch", "multilib", "target", "visibility",
              "features", "for"])) ∧
    shouldGenerateAttribute "" = true ∧
    shouldGenerateAttribute "Name" = true ∧
    shouldGenerateAttribute "FOR" = true ∧
    shouldGenerateAttribute "srcs" = true := by
  refine ⟨fun p => ?_, by decide, by decide, by decide, by decide⟩
  have key : shouldGenerateAttribute p = false ↔
      p ∈ ["name", "from", "in", "size", "arch", "multilib", "target", "visibility",
            "features", "for"] := by
    unfold shouldGenerateAttribute ignoredPropNames
    simp only [mapIndex]
    split_ifs <;> simp_all
  refine ⟨key, ?_⟩
  rw [← key]
  cases shouldGenerateAttribute p <;> simp

/-! ## Identifier canonicalizer -/

/-- C2: `canonicalizeModuleType s` is `s` followed by `"_"` when `s` ends with `"_test"`
and is `s` unchanged otherwise; `"foo_test"` maps to `"foo_test_"` and `"foo_tests"` to
itself. -/
theorem canonicalizeModuleType_spec :
    (∀ s : String,
      ((∃ t : String, s = t ++ "_test") → canonicalizeModuleType s = s ++ "_") ∧
      ((¬ ∃ t : String, s = t ++ "_test") → canonicalizeModuleType s = s)) ∧
    canonicalizeModuleType "foo_test" = "foo_test_" ∧
    canonicalizeModuleType "foo_tests" = "foo_tests" := by
  refine ⟨fun s => ⟨fun h => ?_, fun h => ?_⟩, by decide, by decide⟩
  · unfold canonicalizeModuleType
    rw [if_pos ((hasSuffix_iff s "_test").2 h)]
  · unfold canonicalizeModuleType
    rw [(hasSuffix_false_iff s "_test").2 h]
    simp

/-- Run of C2 on `"bar_test"` (ends with the suffix) and on `"_tes"` (does not). -/
theorem canonicalizeModuleType_spec_witness :
    canonicalizeModuleType "bar_test" = "bar_test" ++ "_" ∧
    canonicalizeModuleType "_tes" = "_tes" :=
  ⟨(canonicalizeModuleType_spec.1 "bar_test").1 ⟨"bar", by decide⟩,
   (canonicalizeModuleType_spec.1 "_tes").2 ((hasSuffix_false_iff "_tes" "_test").1 (by decide))⟩

/-- C3 as stated fails: canonicalizing `"foo_test"` twice gives `"foo_test_"`, the same as
canonicalizing it once, and not `"foo_test__"`. -/
theorem canonicalizeModuleType_twice_counterexample :
    (∃ t : String, "foo_test" = t ++ "_test") ∧
    canonicalizeModuleType (canonicalizeModuleType "foo_test") ≠ "foo_test" ++ "__" ∧
    canonicalizeModuleType (canonicalizeModuleType "foo_test") =
      canonicalizeModuleType "foo_test" :=
  ⟨⟨"foo", by decide⟩, by decide, by decide⟩

/-- C3 (amended): `canonicalizeModuleType` is idempotent.  Applying it a second time changes
nothing, and for `s` ending with `"_test"` both one and two applications give `s ++ "_"`. -/
theorem canonicalizeModuleType_idempotent (s : String) :
    canonicalizeModuleType (canonicalizeModuleType s) = canonicalizeModuleType s ∧
    ((∃ t : String, s = t ++ "_test") →
      canonicalizeModuleType (canonicalizeModuleType s) = s ++ "_" ∧
      canonicalizeModuleType s = s ++ "_") := by
  have idem : canonicalizeModuleType (canonicalizeModuleType s) = canonicalizeModuleType s := by
    unfold canonicalizeModuleType
    cases h : HasSuffix s "_test"
    · simp [h]
    · simp [hasSuffix_test_append_underscore]
  refine ⟨idem, fun h => ?_⟩
  have one : canonicalizeModuleType s = s ++ "_" := by
    unfold canonicalizeModuleType
    rw [if_pos ((hasSuffix_iff s "_test").2 h)]
  exact ⟨idem.trans one, one⟩

/-- Run of the amended C3 on `"cc_test"`. -/
theorem canonicalizeModuleType_idempotent_witness :
    canonicalizeModuleType (canonicalizeModuleType "cc_test") = "cc_test" ++ "_" ∧
    canonicalizeModuleType "cc_test" = "cc_test" ++ "_" :=
  (canonicalizeModuleType_idempotent "cc_test").2 ⟨"cc", by decide⟩

/-- C4: the result of `canonicalizeModuleType` never ends with the reserved suffix
`"_test"`. -/
theorem canonicalizeModuleType_not_reserved (s : String) :
    HasSuffix (canonicalizeModuleType s) "_test" = false ∧
    ¬ ∃ t : String, canonicalizeModuleType s = t ++ "_test" := by
  have h : HasSuffix (canonicalizeModuleType s) "_test" = false := by
    unfold canonicalizeModuleType
    cases h : HasSuffix s "_test"
    · simpa using h
    · simpa using hasSuffix_test_append_underscore s
  exact ⟨h, (hasSuffix_false_iff _ _).1 h⟩

/-! ## Per-directory files -/

/-- A run of `createBuildFiles` on `sampleMap` in a mode with no preamble: the files come
out in key order and each collection is serialized in name order. -/
theorem createBuildFiles_sample_run :
    createBuildFiles sampleOps sampleExt sampleMap (CodegenMode.other 2) =
      [newFile "" "BUILD.bazel" "rule(x)", newFile "a/c" "BUILD.bazel" "rule(y)\n\nrule(z)",
        newFile "b" "BUILD.bazel" ""] := by
  decide

/-- C5: on a key-distinct map, `createBuildFiles` returns exactly one file per key, whatever
the collection stored there; every file has `GeneratedBuildFileName` as its basename, and
the directories of the files are the keys of the map in strictly increasing order. -/
theorem createBuildFiles_one_file_per_key {T R : Type} (ops : BazelTargetsOps T)
    (ext : Externals R) (m : List (String × T)) (mode : CodegenMode) (hm : KeyDistinct m) :
    (createBuildFiles ops ext m mode).length = m.length ∧
    (∀ f ∈ createBuildFiles ops ext m mode, f.Basename = ext.GeneratedBuildFileName) ∧
    ((createBuildFiles ops ext m mode).map BazelFile.Dir).Perm (mapKeys m) ∧
    ((createBuildFiles ops ext m mode).map BazelFile.Dir).Nodup ∧
    ((createBuildFiles ops ext m mode).map BazelFile.Dir).Sorted (fun a b : String => a < b) := by
  refine ⟨?_, ?_, ?_, ?_, ?_⟩
  · rw [← List.length_map (createBuildFiles ops ext m mode) BazelFile.Dir,
      createBuildFiles_dirs, sortedStringKeys_length]
  · intro f hf
    rw [createBuildFiles_eq_map] at hf
    obtain ⟨d, _, rfl⟩ := List.mem_map.1 hf
    rfl
  · rw [createBuildFiles_dirs]
    exact sortedStringKeys_perm m
  · rw [createBuildFiles_dirs]
    exact (sortedStringKeys_perm m).nodup_iff.2 hm
  · rw [createBuildFiles_dirs]
    exact sortedStringKeys_strict m hm

/-- Run of C5 on `sampleMap`, which has an empty collection under `"b"`. -/
theorem createBuildFiles_one_file_per_key_witness :
    KeyDistinct sampleMap ∧
    (createBuildFiles sampleOps sampleExt sampleMap CodegenMode.Bp2Build).length
      = sampleMap.length ∧
    (∀ f ∈ createBuildFiles sampleOps sampleExt sampleMap CodegenMode.Bp2Build,
      f.Basename = sampleExt.GeneratedBuildFileName) ∧
    ((createBuildFiles sampleOps sampleExt sampleMap CodegenMode.Bp2Build).map
      BazelFile.Dir).Perm (mapKeys sampleMap) ∧
    ((createBuildFiles sampleOps sampleExt sampleMap CodegenMode.Bp2Build).map
      BazelFile.Dir).Nodup ∧
    ((createBuildFiles sampleOps sampleExt sampleMap CodegenMode.Bp2Build).map
      BazelFile.Dir).Sorted (fun a b : String => a < b) :=
  ⟨by decide,
   createBuildFiles_one_file_per_key sampleOps sampleExt sampleMap CodegenMode.Bp2Build
     (by decide)⟩

/-! ## Enumeration order of the input maps -/

/-- In every mode other than QueryView the result of `CreateBazelFiles` is the same for all
enumerations of the two maps. -/
theorem createBazelFiles_of_perm_other {Cfg T R : Type} (ops : BazelTargetsOps T)
    (ext : Externals R) (cfg : Cfg) {shims₁ shims₂ : List (String × R)}
    {m₁ m₂ : List (String × T)} (mode : CodegenMode) (hmode : mode ≠ CodegenMode.QueryView)
    (hm : m₁.Perm m₂) (hk : KeyDistinct m₁) :
    CreateBazelFiles ops ext cfg shims₁ m₁ mode = CreateBazelFiles ops ext cfg shims₂ m₂ mode := by
  rw [createBazelFiles_other_eq ops ext cfg shims₁ m₁ mode hmode,
    createBazelFiles_other_eq ops ext cfg shims₂ m₂ mode hmode]
  exact createBuildFiles_of_perm ops ext mode hm hk

/-- C6 fails in QueryView mode: two enumerations of one two-entry `ruleShims` map
(key-distinct, permutations of each other) give lists that differ, because the rule-shim
files are appended in enumeration order. -/
theorem createBazelFiles_queryView_depends_on_enumeration :
    KeyDistinct sampleShims ∧ KeyDistinct sampleShims.reverse ∧
    sampleShims.Perm sampleShims.reverse ∧
    CreateBazelFiles sampleOps sampleExt () sampleShims sampleMap CodegenMode.QueryView ≠
      CreateBazelFiles sampleOps sampleExt () sampleShims.reverse sampleMap
        CodegenMode.QueryView ∧
    (CreateBazelFiles sampleOps sampleExt () sampleShims sampleMap CodegenMode.QueryView).get? 4 =
      some (newFile bazelRulesSubDir "cc_library.bzl" "cc_library = rule()") ∧
    (CreateBazelFiles sampleOps sampleExt () sampleShims.reverse sampleMap
        CodegenMode.QueryView).get? 4 =
      some (newFile bazelRulesSubDir "java_library.bzl" "java_library = rule()") := by
  refine ⟨by decide, by decide, ?_, by decide, by decide, by decide⟩
  exact (List.reverse_perm sampleShims).symm

/-! ## Preamble of a per-directory file -/

/-- C7: in Bp2Build mode the file of every collection starts with the three-line advisory
header followed by exactly one line and a newline, then the load statements; the line is
the public default-visibility declaration when `hasHandcraftedTargets()` is false and the
generated-and-handcrafted advisory comment when it is true, in which case the text before
the load statements contains no `package(default_visibility` declaration. -/
theorem createBuildFiles_bp2build_preamble {T R : Type} (ops : BazelTargetsOps T)
    (ext : Externals R) (m : List (String × T)) (hm : KeyDistinct m) (dir : String) (c : T)
    (h : (dir, c) ∈ m) :
    preamble ops ext CodegenMode.Bp2Build (ops.sort c) =
      (bp2buildHeader ++
          (if ops.hasHandcraftedTargets (ops.sort c) then handcraftedComment else packageDecl)
          ++ "\n") ++
        ops.LoadStatements (ops.sort c) ∧
    (∀ f ∈ createBuildFiles ops ext m CodegenMode.Bp2Build, f.Dir = dir →
      f.Contents =
        (bp2buildHeader ++
            (if ops.hasHandcraftedTargets (ops.sort c) then handcraftedComment else packageDecl)
            ++ "\n") ++
          ops.LoadStatements (ops.sort c) ++ "\n\n" ++ ops.String_ (ops.sort c)) ∧
    (∃ f ∈ createBuildFiles ops ext m CodegenMode.Bp2Build, f.Dir = dir) ∧
    bp2buildHeader.data.count '\n' = 3 ∧
    HasSuffix bp2buildHeader "\n" = true ∧
    handcraftedComment.data.count '\n' = 0 ∧
    packageDecl.data.count '\n' = 0 ∧
    packageDecl = "package(default_visibility = [\"//visibility:public\"])" ∧
    ¬ ("package(default_visibility".data <:+: (bp2buildHeader ++ handcraftedComment ++ "\n").data)
    := by
  refine ⟨preamble_bp2build ops ext _, ?_, ?_, bp2buildHeader_lines.1, bp2buildHeader_lines.2,
    preamble_lines.1, preamble_lines.2, rfl, handcrafted_preamble_has_no_packageDecl⟩
  · intro f hf hd
    subst hd
    rw [createBuildFiles_contents ops ext m _ hm f hf c h,
      buildFileContents_of_ne_empty ops ext _ _ (preamble_bp2build_ne_empty ops ext _),
      preamble_bp2build]
  · exact ⟨_, createBuildFiles_mem ops ext m _ hm dir c h, rfl⟩

/-- Run of C7 on the handcrafted collection stored under the root directory of
`sampleMap`. -/
theorem createBuildFiles_bp2build_preamble_witness :
    KeyDistinct sampleMap ∧ ("", [⟨"x", "rule(x)", true⟩]) ∈ sampleMap ∧
    preamble sampleOps sampleExt CodegenMode.Bp2Build
        (sampleOps.sort [⟨"x", "rule(x)", true⟩]) =
      (bp2buildHeader ++
          (if sampleOps.hasHandcraftedTargets (sampleOps.sort [⟨"x", "rule(x)", true⟩])
            then handcraftedComment else packageDecl)
          ++ "\n") ++
        sampleOps.LoadStatements (sampleOps.sort [⟨"x", "rule(x)", true⟩]) :=
  ⟨by decide, by decide,
   (createBuildFiles_bp2build_preamble sampleOps sampleExt sampleMap (by decide) ""
      [⟨"x", "rule(x)", true⟩] (by decide)).1⟩

set_option maxRecDepth 100000 in
/-- C8: the code evaluated at the input where it departs from the claim.  In Bp2Build mode,
for a collection without load statements, the preamble is not empty and already ends with
the newline of line 109, so the separator of line 116 leaves two blank lines, not one,
between the preamble and the serialized targets. -/
theorem createBuildFiles_two_blank_lines_without_loads :
    sampleOps.LoadStatements (sampleOps.sort [⟨"x", "rule(x)", false⟩]) = "" ∧
    preamble sampleOps sampleExt CodegenMode.Bp2Build
      (sampleOps.sort [⟨"x", "rule(x)", false⟩]) ≠ "" ∧
    HasSuffix (preamble sampleOps sampleExt CodegenMode.Bp2Build
      (sampleOps.sort [⟨"x", "rule(x)", false⟩])) "\n" = true ∧
    createBuildFiles sampleOps sampleExt [("a", [⟨"x", "rule(x)", false⟩])]
        CodegenMode.Bp2Build =
      [newFile "a" "BUILD.bazel"
        "# READ THIS FIRST:\n# This file was automatically generated by bp2build for the Bazel migration project.\n# Feel free to edit or test it, but do *not* check it into your version control system.\npackage(default_visibility = [\"//visibility:public\"])\n\n\nrule(x)"] := by
  decide

/-- What lines 114-118 compute: whenever the preamble `P` of a collection is not empty, the
file content is `P ++ "\n\n" ++ targets.String()`.  In Bp2Build mode `P` ends with a
newline exactly when `LoadStatements()` is empty or itself ends with a newline, and in
QueryView mode `P` is `soongModuleLoad`. -/
theorem createBuildFiles_separator {T R : Type} (ops : BazelTargetsOps T)
    (ext : Externals R) (m : List (String × T)) (mode : CodegenMode) (hm : KeyDistinct m)
    (dir : String) (c : T) (h : (dir, c) ∈ m)
    (hne : preamble ops ext mode (ops.sort c) ≠ "") :
    (∀ f ∈ createBuildFiles ops ext m mode, f.Dir = dir →
      f.Contents = preamble ops ext mode (ops.sort c) ++ "\n\n" ++ ops.String_ (ops.sort c)) ∧
    (∃ f ∈ createBuildFiles ops ext m mode, f.Dir = dir) ∧
    (mode = CodegenMode.Bp2Build →
      (HasSuffix (preamble ops ext mode (ops.sort c)) "\n" = true ↔
        (ops.LoadStatements (ops.sort c) = "" ∨
          HasSuffix (ops.LoadStatements (ops.sort c)) "\n" = true))) ∧
    (mode = CodegenMode.QueryView → preamble ops ext mode (ops.sort c) = ext.soongModuleLoad) := by
  refine ⟨?_, ⟨_, createBuildFiles_mem ops ext m _ hm dir c h, rfl⟩, ?_, ?_⟩
  · intro f hf hd
    subst hd
    rw [createBuildFiles_contents ops ext m _ hm f hf c h,
      buildFileContents_of_ne_empty ops ext _ _ hne]
  · rintro rfl
    rw [preamble_bp2build]
    by_cases hl : ops.LoadStatements (ops.sort c) = ""
    · rw [hl, String.append_empty, hasSuffix_newline_append _ _ (by decide)]
      simp
      decide
    · rw [hasSuffix_newline_append _ _ hl]
      simp [hl]
  · rintro rfl
    exact preamble_queryView ops ext _

/-- Run of `createBuildFiles_separator` on the empty collection stored under `"b"` in
`sampleMap`. -/
theorem createBuildFiles_separator_witness :
    KeyDistinct sampleMap ∧ ("b", []) ∈ sampleMap ∧
    preamble sampleOps sampleExt CodegenMode.Bp2Build (sampleOps.sort []) ≠ "" ∧
    (∀ f ∈ createBuildFiles sampleOps sampleExt sampleMap CodegenMode.Bp2Build, f.Dir = "b" →
      f.Contents = preamble sampleOps sampleExt CodegenMode.Bp2Build (sampleOps.sort [])
        ++ "\n\n" ++ sampleOps.String_ (sampleOps.sort [])) :=
  ⟨by decide, by decide, preamble_bp2build_ne_empty sampleOps sampleExt _,
   (createBuildFiles_separator sampleOps sampleExt sampleMap CodegenMode.Bp2Build (by decide)
      "b" [] (by decide) (preamble_bp2build_ne_empty sampleOps sampleExt _)).1⟩

/-- C9: the preamble is empty exactly when the mode is neither Bp2Build nor QueryView, or
the mode is QueryView and `soongModuleLoad` is empty; the file content is then exactly
`targets.String()` of the sorted collection, with nothing in front of it; and in Bp2Build
mode the preamble is never empty. -/
theorem createBuildFiles_empty_preamble {T R : Type} (ops : BazelTargetsOps T)
    (ext : Externals R) (m : List (String × T)) (mode : CodegenMode) (hm : KeyDistinct m)
    (dir : String) (c : T) (h : (dir, c) ∈ m) :
    (preamble ops ext mode (ops.sort c) = "" ↔
      ((mode ≠ CodegenMode.Bp2Build ∧ mode ≠ CodegenMode.QueryView) ∨
        (mode = CodegenMode.QueryView ∧ ext.soongModuleLoad = ""))) ∧
    (preamble ops ext mode (ops.sort c) = "" →
      (∀ f ∈ createBuildFiles ops ext m mode, f.Dir = dir →
        f.Contents = ops.String_ (ops.sort c)) ∧
      (∃ f ∈ createBuildFiles ops ext m mode, f.Dir = dir)) ∧
    preamble ops ext CodegenMode.Bp2Build (ops.sort c) ≠ "" := by
  refine ⟨?_, fun he => ⟨?_, ⟨_, createBuildFiles_mem ops ext m _ hm dir c h, rfl⟩⟩,
    preamble_bp2build_ne_empty ops ext _⟩
  · cases mode with
    | Bp2Build =>
      have := preamble_bp2build_ne_empty ops ext (ops.sort c)
      simp [this]
    | QueryView => simp [preamble_queryView]
    | other n => simp [preamble]
  · intro f hf hd
    subst hd
    rw [createBuildFiles_contents ops ext m _ hm f hf c h,
      buildFileContents_of_empty ops ext _ _ he]

/-- Run of C9 on `sampleMap` in a mode that is neither Bp2Build nor QueryView. -/
theorem createBuildFiles_empty_preamble_witness :
    KeyDistinct sampleMap ∧ ("b", []) ∈ sampleMap ∧
    preamble sampleOps sampleExt (CodegenMode.other 7) (sampleOps.sort []) = "" ∧
    (∀ f ∈ createBuildFiles sampleOps sampleExt sampleMap (CodegenMode.other 7),
      f.Dir = "b" → f.Contents = sampleOps.String_ (sampleOps.sort [])) :=
  ⟨by decide, by decide, by decide,
   ((createBuildFiles_empty_preamble sampleOps sampleExt sampleMap (CodegenMode.other 7)
      (by decide) "b" [] (by decide)).2.1 (by decide)).1⟩

/-! ## Files of the QueryView tree -/

/-- C10: in QueryView mode `CreateBazelFiles` returns `numAdditionalFiles + N + D` files
for `N` rule shims and `D` directories, and for every rule shim `k` the result holds the
file `k.bzl` of the rules directory with the shim's content. -/
theorem createBazelFiles_queryView_count {Cfg T R : Type} (ops : BazelTargetsOps T)
    (ext : Externals R) (cfg : Cfg) (ruleShims : List (String × R))
    (m : List (String × T)) :
    (CreateBazelFiles ops ext cfg ruleShims m CodegenMode.QueryView).length =
      numAdditionalFiles + ruleShims.length + m.length ∧
    numAdditionalFiles = 5 ∧
    (∀ (k : String) (shim : R), (k, shim) ∈ ruleShims →
      newFile bazelRulesSubDir (k ++ ".bzl") (ext.content shim) ∈
        CreateBazelFiles ops ext cfg ruleShims m CodegenMode.QueryView) := by
  refine ⟨?_, rfl, ?_⟩
  · rw [createBazelFiles_queryView_eq]
    simp only [List.length_append, List.length_map, List.length_cons, List.length_nil,
      numAdditionalFiles]
    rw [← List.length_map (createBuildFiles ops ext m CodegenMode.QueryView) BazelFile.Dir,
      createBuildFiles_dirs, sortedStringKeys_length]
    omega
  · intro k shim hk
    rw [createBazelFiles_queryView_eq]
    simp only [List.mem_append, List.mem_map]
    exact Or.inl (Or.inl (Or.inr ⟨(k, shim), hk, rfl⟩))

/-- Run of C10 on `sampleShims` and `sampleMap`: ten files, among them `java_library.bzl`. -/
theorem createBazelFiles_queryView_count_witness :
    ("java_library", "java_library = rule()") ∈ sampleShims ∧
    (CreateBazelFiles sampleOps sampleExt () sampleShims sampleMap CodegenMode.QueryView).length
      = 5 + 2 + 3 ∧
    newFile bazelRulesSubDir ("java_library" ++ ".bzl") (sampleExt.content "java_library = rule()")
      ∈ CreateBazelFiles sampleOps sampleExt () sampleShims sampleMap CodegenMode.QueryView :=
  ⟨by decide,
   (createBazelFiles_queryView_count sampleOps sampleExt () sampleShims sampleMap).1,
   (createBazelFiles_queryView_count sampleOps sampleExt () sampleShims sampleMap).2.2
      "java_library" "java_library = rule()" (by decide)⟩

/-! ## Struct-field filter -/

/-- C15: `shouldSkipStructField` returns true exactly when the field is unexported
(non-empty `PkgPath`) and not anonymous, or carries the tag `blueprint:"mutated"`; an
exported field without the tag is not skipped, and an unexported anonymous field is skipped
exactly when it carries the tag. -/
theorem shouldSkipStructField_iff (HasTag : StructField → String → String → Bool)
    (field : StructField) :
    (shouldSkipStructField HasTag field = true ↔
      ((field.PkgPath ≠ "" ∧ field.Anonymous = false) ∨
        HasTag field "blueprint" "mutated" = true)) ∧
    (field.PkgPath = "" → HasTag field "blueprint" "mutated" = false →
      shouldSkipStructField HasTag field = false) ∧
    (field.PkgPath ≠ "" → field.Anonymous = true →
      (shouldSkipStructField HasTag field = true ↔
        HasTag field "blueprint" "mutated" = true)) := by
  unfold shouldSkipStructField
  refine ⟨?_, ?_, ?_⟩
  · by_cases hp : field.PkgPath = "" <;> cases field.Anonymous <;>
      cases HasTag field "blueprint" "mutated" <;> simp [hp]
  · intro hp ht
    simp [hp, ht]
  · intro hp ha
    cases ht : HasTag field "blueprint" "mutated" <;> simp [hp, ha]

/-- Run of C15: an exported untagged field is kept, an unexported embedded field is kept
unless tagged, an unexported named field is skipped. -/
theorem shouldSkipStructField_iff_witness :
    shouldSkipStructField sampleHasTag ⟨"Srcs", "", "", false⟩ = false ∧
    (shouldSkipStructField sampleHasTag ⟨"base", "android/soong/cc", "", true⟩ = true ↔
      sampleHasTag ⟨"base", "android/soong/cc", "", true⟩ "blueprint" "mutated" = true) ∧
    shouldSkipStructField sampleHasTag ⟨"base", "android/soong/cc", "", true⟩ = false ∧
    shouldSkipStructField sampleHasTag
      ⟨"base", "android/soong/cc", "blueprint:\"mutated\"", true⟩ = true ∧
    shouldSkipStructField sampleHasTag ⟨"hidden", "android/soong/cc", "", false⟩ = true :=
  ⟨(shouldSkipStructField_iff sampleHasTag ⟨"Srcs", "", "", false⟩).2.1 (by decide) (by decide),
   (shouldSkipStructField_iff sampleHasTag ⟨"base", "android/soong/cc", "", true⟩).2.2
     (by decide) (by decide),
   by decide, by decide, by decide⟩

/-! ## Collisions of the identifier canonicalizer -/

/-- C20 as stated fails: the distinct identifiers `"foo_test"` and `"foo_test_"` are both
mapped to `"foo_test_"`. -/
theorem canonicalizeModuleType_collision_counterexample :
    "foo_test" ≠ "foo_test_" ∧
    canonicalizeModuleType "foo_test" = canonicalizeModuleType "foo_test_" ∧
    canonicalizeModuleType "foo_test_" = "foo_test_" := by
  decide

/-- C20 (amended): two identifiers get the same canonical name exactly when they are equal
or one of them ends with `"_test"` and the other is that one followed by `"_"`; so
`canonicalizeModuleType` is injective on the identifiers that do not end with `"_test_"`. -/
theorem canonicalizeModuleType_eq_iff (s t : String) :
    (canonicalizeModuleType s = canonicalizeModuleType t ↔
      (s = t ∨ (HasSuffix s "_test" = true ∧ t = s ++ "_") ∨
        (HasSuffix t "_test" = true ∧ s = t ++ "_"))) ∧
    (HasSuffix s "_test_" = false → HasSuffix t "_test_" = false →
      canonicalizeModuleType s = canonicalizeModuleType t → s = t) := by
  have key : canonicalizeModuleType s = canonicalizeModuleType t ↔
      (s = t ∨ (HasSuffix s "_test" = true ∧ t = s ++ "_") ∨
        (HasSuffix t "_test" = true ∧ s = t ++ "_")) := by
    constructor
    · intro h
      unfold canonicalizeModuleType at h
      cases hs : HasSuffix s "_test" <;> cases ht : HasSuffix t "_test" <;>
        simp only [hs, ht, if_true, if_false, Bool.false_eq_true] at h
      · exact Or.inl h
      · exact Or.inr (Or.inr ⟨rfl, h⟩)
      · exact Or.inr (Or.inl ⟨rfl, h.symm⟩)
      · exact Or.inl (string_append_right_cancel h)
    · rintro (rfl | ⟨hs, rfl⟩ | ⟨ht, rfl⟩)
      · rfl
      · unfold canonicalizeModuleType
        simp [hs, hasSuffix_test_append_underscore]
      · unfold canonicalizeModuleType
        simp [ht, hasSuffix_test_append_underscore]
  have bad : ∀ a : String, HasSuffix a "_test" = true → HasSuffix (a ++ "_") "_test_" = true := by
    intro a ha
    obtain ⟨u, rfl⟩ := (hasSuffix_iff a "_test").1 ha
    exact (hasSuffix_iff _ _).2 ⟨u, by rw [String.append_assoc]; rfl⟩
  refine ⟨key, fun hs ht h => ?_⟩
  rcases key.1 h with h1 | ⟨h1, h2⟩ | ⟨h1, h2⟩
  · exact h1
  · rw [h2, bad s h1] at ht
    exact absurd ht (by decide)
  · rw [h2, bad t h1] at hs
    exact absurd hs (by decide)

/-- Run of the amended C20 on `"cc_test"` and `"cc_library"`. -/
theorem canonicalizeModuleType_eq_iff_witness :
    HasSuffix "cc_test" "_test_" = false ∧ HasSuffix "cc_library" "_test_" = false ∧
    (canonicalizeModuleType "cc_test" = canonicalizeModuleType "cc_library" →
      "cc_test" = "cc_library") :=
  ⟨by decide, by decide,
   (canonicalizeModuleType_eq_iff "cc_test" "cc_library").2 (by decide) (by decide)⟩

/-! ## QueryView and the other modes -/

/-- C14: in QueryView mode the text in front of the serialized targets does not depend on
the collection: for any two collections the contents are `X ++ c₁.String()` and
`X ++ c₂.String()` with the same `X`, which is `soongModuleLoad` followed by the separator,
or nothing when `soongModuleLoad` is empty. -/
theorem createBuildFiles_queryView_fixed_front {T R : Type} (ops : BazelTargetsOps T)
    (ext : Externals R) (m₁ m₂ : List (String × T)) (hm₁ : KeyDistinct m₁)
    (hm₂ : KeyDistinct m₂) (dir₁ dir₂ : String) (c₁ c₂ : T) (h₁ : (dir₁, c₁) ∈ m₁)
    (h₂ : (dir₂, c₂) ∈ m₂) :
    preamble ops ext CodegenMode.QueryView (ops.sort c₁) =
      preamble ops ext CodegenMode.QueryView (ops.sort c₂) ∧
    (∀ f ∈ createBuildFiles ops ext m₁ CodegenMode.QueryView, f.Dir = dir₁ →
      f.Contents =
        (if ext.soongModuleLoad ≠ "" then ext.soongModuleLoad ++ "\n\n" else "") ++
          ops.String_ (ops.sort c₁)) ∧
    (∀ f ∈ createBuildFiles ops ext m₂ CodegenMode.QueryView, f.Dir = dir₂ →
      f.Contents =
        (if ext.soongModuleLoad ≠ "" then ext.soongModuleLoad ++ "\n\n" else "") ++
          ops.String_ (ops.sort c₂)) ∧
    (∃ f ∈ createBuildFiles ops ext m₁ CodegenMode.QueryView, f.Dir = dir₁) ∧
    (∃ f ∈ createBuildFiles ops ext m₂ CodegenMode.QueryView, f.Dir = dir₂) := by
  have key : ∀ t : T, buildFileContents ops ext CodegenMode.QueryView t =
      (if ext.soongModuleLoad ≠ "" then ext.soongModuleLoad ++ "\n\n" else "") ++
        ops.String_ t := by
    intro t
    unfold buildFileContents
    rw [preamble_queryView]
    by_cases h : ext.soongModuleLoad = "" <;> simp [h]
  refine ⟨by rw [preamble_queryView, preamble_queryView], ?_, ?_,
    ⟨_, createBuildFiles_mem ops ext m₁ _ hm₁ dir₁ c₁ h₁, rfl⟩,
    ⟨_, createBuildFiles_mem ops ext m₂ _ hm₂ dir₂ c₂ h₂, rfl⟩⟩
  · intro f hf hd
    subst hd
    rw [createBuildFiles_contents ops ext m₁ _ hm₁ f hf c₁ h₁, key]
  · intro f hf hd
    subst hd
    rw [createBuildFiles_contents ops ext m₂ _ hm₂ f hf c₂ h₂, key]

/-- Run of C14 on the two non-empty collections of `sampleMap`, one of them handcrafted. -/
theorem createBuildFiles_queryView_fixed_front_witness :
    KeyDistinct sampleMap ∧ ("", [⟨"x", "rule(x)", true⟩]) ∈ sampleMap ∧
    ("a/c", [⟨"z", "rule(z)", false⟩, ⟨"y", "rule(y)", false⟩]) ∈ sampleMap ∧
    preamble sampleOps sampleExt CodegenMode.QueryView
        (sampleOps.sort [⟨"x", "rule(x)", true⟩]) =
      preamble sampleOps sampleExt CodegenMode.QueryView
        (sampleOps.sort [⟨"z", "rule(z)", false⟩, ⟨"y", "rule(y)", false⟩]) :=
  ⟨by decide, by decide, by decide,
   (createBuildFiles_queryView_fixed_front sampleOps sampleExt sampleMap sampleMap (by decide)
      (by decide) "" "a/c" [⟨"x", "rule(x)", true⟩]
      [⟨"z", "rule(z)", false⟩, ⟨"y", "rule(y)", false⟩] (by decide) (by decide)).1⟩

/-- C17: in QueryView mode the result of `CreateBazelFiles` is the workspace file, the two
package markers, `providers.bzl`, one file per rule shim, `soong_module.bzl`, and then
exactly the result of `createBuildFiles` as the final segment. -/
theorem createBazelFiles_queryView_shape {Cfg T R : Type} (ops : BazelTargetsOps T)
    (ext : Externals R) (cfg : Cfg) (ruleShims : List (String × R)) (m : List (String × T)) :
    CreateBazelFiles ops ext cfg ruleShims m CodegenMode.QueryView =
      [ newFile "" "WORKSPACE" "",
        newFile "" ext.GeneratedBuildFileName "",
        newFile bazelRulesSubDir ext.GeneratedBuildFileName "",
        newFile bazelRulesSubDir "providers.bzl" ext.providersBzl ] ++
      ruleShims.map (fun shim =>
        newFile bazelRulesSubDir (shim.1 ++ ".bzl") (ext.content shim.2)) ++
      [ newFile bazelRulesSubDir "soong_module.bzl" (ext.generateSoongModuleBzl ruleShims) ] ++
      createBuildFiles ops ext m CodegenMode.QueryView ∧
    (ruleShims.map (fun shim =>
        newFile bazelRulesSubDir (shim.1 ++ ".bzl") (ext.content shim.2))).length
      = ruleShims.length :=
  ⟨createBazelFiles_queryView_eq ops ext cfg ruleShims m, List.length_map _ _⟩

/-- C18: in every mode other than QueryView the result of `CreateBazelFiles` is the result
of `createBuildFiles`; it is the same for every configuration and every `ruleShims`. -/
theorem createBazelFiles_non_queryView {Cfg T R : Type} (ops : BazelTargetsOps T)
    (ext : Externals R) (cfg : Cfg) (ruleShims : List (String × R)) (m : List (String × T))
    (mode : CodegenMode) (hmode : mode ≠ CodegenMode.QueryView) :
    CreateBazelFiles ops ext cfg ruleShims m mode = createBuildFiles ops ext m mode ∧
    (∀ (cfg2 : Cfg) (ruleShims2 : List (String × R)),
      CreateBazelFiles ops ext cfg2 ruleShims2 m mode =
        CreateBazelFiles ops ext cfg ruleShims m mode) := by
  refine ⟨createBazelFiles_other_eq ops ext cfg ruleShims m mode hmode, fun cfg2 shims2 => ?_⟩
  rw [createBazelFiles_other_eq ops ext cfg ruleShims m mode hmode,
    createBazelFiles_other_eq ops ext cfg2 shims2 m mode hmode]

/-- Run of C18 in Bp2Build mode on `sampleMap`, with and without rule shims. -/
theorem createBazelFiles_non_queryView_witness :
    CodegenMode.Bp2Build ≠ CodegenMode.QueryView ∧
    CreateBazelFiles sampleOps sampleExt () sampleShims sampleMap CodegenMode.Bp2Build =
      createBuildFiles sampleOps sampleExt sampleMap CodegenMode.Bp2Build ∧
    CreateBazelFiles sampleOps sampleExt () [] sampleMap CodegenMode.Bp2Build =
      CreateBazelFiles sampleOps sampleExt () sampleShims sampleMap CodegenMode.Bp2Build :=
  ⟨by decide,
   (createBazelFiles_non_queryView sampleOps sampleExt () sampleShims sampleMap
      CodegenMode.Bp2Build (by decide)).1,
   (createBazelFiles_non_queryView sampleOps sampleExt () sampleShims sampleMap
      CodegenMode.Bp2Build (by decide)).2 () []⟩

/-! ## Injected files -/

/-- C16: `CreateSoongInjectionFiles` aborts exactly when encoding the API-levels table
fails, with that error and without any file list; when the encoding succeeds it returns
the full list of twelve files, whose eleventh file is `api_levels/api_levels.json` with
exactly the encoded text as its contents. -/
theorem createSoongInjectionFiles_abort_iff {Cfg A Err : Type}
    (deps : InjectionDeps Cfg A Err) (cfg : Cfg) (metrics : CodegenMetrics) :
    ((∃ err, CreateSoongInjectionFiles deps cfg metrics = Except.error err) ↔
      (∃ err, deps.jsonMarshal (deps.GetApiLevelsMap cfg) = Except.error err)) ∧
    (∀ err, deps.jsonMarshal (deps.GetApiLevelsMap cfg) = Except.error err →
      CreateSoongInjectionFiles deps cfg metrics = Except.error err) ∧
    (∀ text, deps.jsonMarshal (deps.GetApiLevelsMap cfg) = Except.ok text →
      ∃ files, CreateSoongInjectionFiles deps cfg metrics = Except.ok files ∧
        files.length = 12 ∧
        files.get? 10 = some (newFile "api_levels" "api_levels.json" text) ∧
        (∀ f ∈ files, f.Basename = "api_levels.json" →
          f.Basename ≠ deps.GeneratedBuildFileName → f.Contents = text)) := by
  refine ⟨?_, fun err h => createSoongInjectionFiles_of_error deps cfg metrics err h, ?_⟩
  · cases h : deps.jsonMarshal (deps.GetApiLevelsMap cfg) with
    | error err =>
      rw [createSoongInjectionFiles_of_error deps cfg metrics err h]
      simp
    | ok text =>
      rw [createSoongInjectionFiles_of_ok deps cfg metrics text h]
      simp
  · intro text h
    refine ⟨_, createSoongInjectionFiles_of_ok deps cfg metrics text h, rfl, rfl, ?_⟩
    intro f hf hb hg
    simp only [List.mem_cons, List.mem_singleton, List.not_mem_nil, or_false] at hf
    rcases hf with rfl | rfl | rfl | rfl | rfl | rfl | rfl | rfl | rfl | rfl | rfl | rfl <;>
      first
        | rfl
        | exact (hg rfl).elim
        | exact absurd hb (by simp [newFile])

/-- Run of C16: with `sampleDeps` the encoding fails for configuration `0`, and the run
aborts with the same error. -/
theorem createSoongInjectionFiles_abort_iff_witness :
    sampleDeps.jsonMarshal (sampleDeps.GetApiLevelsMap 0) = Except.error "empty table" ∧
    CreateSoongInjectionFiles sampleDeps 0 ⟨["libfoo", "libbar"]⟩ = Except.error "empty table" :=
  ⟨rfl,
   (createSoongInjectionFiles_abort_iff sampleDeps 0 ⟨["libfoo", "libbar"]⟩).2.1
      "empty table" rfl⟩

/-- C19: when the encoding succeeds `CreateSoongInjectionFiles` returns exactly twelve
files whose (Dir, Basename) pairs are the fixed sequence below, pairwise distinct as soon
as `GeneratedBuildFileName` is none of the three other basenames used next to it; the
contents of `metrics/converted_modules.txt` is the converted-module names joined by
newlines, ending with the last name and not with a separator. -/
theorem createSoongInjectionFiles_twelve_files {Cfg A Err : Type}
    (deps : InjectionDeps Cfg A Err) (cfg : Cfg) (metrics : CodegenMetrics) (text : String)
    (h : deps.jsonMarshal (deps.GetApiLevelsMap cfg) = Except.ok text) :
    ∃ files, CreateSoongInjectionFiles deps cfg metrics = Except.ok files ∧
      files.length = 12 ∧
      files.map (fun f => (f.Dir, f.Basename)) =
        [ ("cc_toolchain", deps.GeneratedBuildFileName), ("cc_toolchain", "constants.bzl"),
          ("java_toolchain", deps.GeneratedBuildFileName), ("java_toolchain", "constants.bzl"),
          ("apex_toolchain", deps.GeneratedBuildFileName), ("apex_toolchain", "constants.bzl"),
          ("metrics", "converted_modules.txt"),
          ("product_config", "soong_config_variables.bzl"),
          ("product_config", "arch_configuration.bzl"),
          ("api_levels", deps.GeneratedBuildFileName), ("api_levels", "api_levels.json"),
          ("api_levels", "api_levels.bzl") ] ∧
      (deps.GeneratedBuildFileName ∉ ["constants.bzl", "api_levels.json", "api_levels.bzl"] →
        (files.map (fun f => (f.Dir, f.Basename))).Nodup) ∧
      files.get? 6 = some (newFile "metrics" "converted_modules.txt"
        (convertedModules metrics.convertedModules)) ∧
      convertedModules metrics.convertedModules = stringsJoin metrics.convertedModules "\n" ∧
      (metrics.convertedModules = [] → convertedModules metrics.convertedModules = "") ∧
      (∀ init last, metrics.convertedModules = init ++ [last] →
        convertedModules metrics.convertedModules =
          if init = [] then last else stringsJoin init "\n" ++ "\n" ++ last) ∧
      (∀ init last, metrics.convertedModules = init ++ [last] → last ≠ "" →
        HasSuffix last "\n" = false →
        HasSuffix (convertedModules metrics.convertedModules) "\n" = false) := by
  refine ⟨_, createSoongInjectionFiles_of_ok deps cfg metrics text h, rfl, rfl, ?_, rfl, rfl,
    ?_, ?_, ?_⟩
  · intro hg
    simp only [List.mem_cons, List.mem_singleton, List.not_mem_nil, or_false, not_or] at hg
    obtain ⟨h1, h2, h3⟩ := hg
    simp [newFile, h1, h2, h3]
  · intro he
    rw [he]
    rfl
  · intro init last he
    rw [he]
    exact stringsJoin_concat init last "\n"
  · intro init last he hne hs
    rw [he]
    unfold convertedModules
    rw [stringsJoin_concat]
    by_cases hi : init = []
    · simpa [hi] using hs
    · rw [if_neg hi, hasSuffix_newline_append _ _ hne]
      exact hs

/-- Run of C19 with `sampleDeps` on configuration `1`, for which the encoding succeeds. -/
theorem createSoongInjectionFiles_twelve_files_witness :
    sampleDeps.jsonMarshal (sampleDeps.GetApiLevelsMap 1) = Except.ok "[0]" ∧
    ∃ files, CreateSoongInjectionFiles sampleDeps 1 ⟨["libfoo", "libbar"]⟩ = Except.ok files ∧
      files.length = 12 ∧
      files.get? 6 = some (newFile "metrics" "converted_modules.txt" "libfoo\nlibbar") :=
  ⟨rfl,
   (createSoongInjectionFiles_twelve_files sampleDeps 1 ⟨["libfoo", "libbar"]⟩ "[0]" rfl).imp
      (fun _ hf => ⟨hf.1, hf.2.1, hf.2.2.2.2.1.trans (by decide)⟩)⟩

/-! ## Order of the targets and load statements -/

/-- A run of `createBuildFiles` on a spec-modelled collection stored in decreasing name
order: the file lists the targets in increasing name order. -/
theorem createBuildFiles_sorted_sample_run :
    createBuildFiles (specTargetsOps sampleSerialize sampleLoads) sampleExt
        [("a", ⟨[⟨"z", "rule(z)"⟩, ⟨"m", "rule(m)"⟩, ⟨"b", "rule(b)"⟩], false⟩)]
        (CodegenMode.other 0) =
      [newFile "a" "BUILD.bazel" "rule(b)\n\nrule(m)\n\nrule(z)"] := by
  decide

/-- C12: the contents of every file is built from the collection after `targets.sort()`:
both the load statements and the serialized targets are taken from the sorted collection,
whose targets are the input targets in increasing name order; a collection holding the
same targets (with pairwise distinct names) in another order gives the same contents. -/
theorem createBuildFiles_targets_sorted {R : Type} (serialize loads : List BazelTarget → String)
    (ext : Externals R) (m : List (String × BazelTargets)) (mode : CodegenMode)
    (hm : KeyDistinct m) (dir : String) (c : BazelTargets) (h : (dir, c) ∈ m) :
    (∀ f ∈ createBuildFiles (specTargetsOps serialize loads) ext m mode, f.Dir = dir →
      f.Contents =
        (if preamble (specTargetsOps serialize loads) ext mode c.sort ≠ "" then
            preamble (specTargetsOps serialize loads) ext mode c.sort ++ "\n\n"
          else preamble (specTargetsOps serialize loads) ext mode c.sort) ++
          serialize c.sort.targets) ∧
    (∃ f ∈ createBuildFiles (specTargetsOps serialize loads) ext m mode, f.Dir = dir) ∧
    preamble (specTargetsOps serialize loads) ext CodegenMode.Bp2Build c.sort =
      (bp2buildHeader ++ (if c.handcrafted then handcraftedComment else packageDecl) ++ "\n") ++
        loads c.sort.targets ∧
    c.sort.targets.Perm c.targets ∧
    (c.sort.targets.map BazelTarget.name).Sorted (fun a b : String => a ≤ b) ∧
    (∀ c2 : BazelTargets, c2.targets.Perm c.targets → c2.handcrafted = c.handcrafted →
      (c.targets.map BazelTarget.name).Nodup →
      buildFileContents (specTargetsOps serialize loads) ext mode c2.sort =
        buildFileContents (specTargetsOps serialize loads) ext mode c.sort) := by
  refine ⟨?_, ⟨_, createBuildFiles_mem _ ext m _ hm dir c h, rfl⟩, ?_,
    bazelTargets_sort_perm c, bazelTargets_sort_names_sorted c, ?_⟩
  · intro f hf hd
    subst hd
    rw [createBuildFiles_contents _ ext m _ hm f hf c h]
    rfl
  · rw [preamble_bp2build]
    rfl
  · intro c2 hp hf hn
    rw [bazelTargets_sort_of_perm c c2 hp hf hn]

/-- Run of C12 on a map whose one collection is stored in decreasing name order. -/
theorem createBuildFiles_targets_sorted_witness :
    KeyDistinct [("a", (⟨[⟨"z", "rule(z)"⟩, ⟨"b", "rule(b)"⟩], false⟩ : BazelTargets))] ∧
    (BazelTargets.sort ⟨[⟨"z", "rule(z)"⟩, ⟨"b", "rule(b)"⟩], false⟩).targets =
      [⟨"b", "rule(b)"⟩, ⟨"z", "rule(z)"⟩] ∧
    (∀ f ∈ createBuildFiles (specTargetsOps sampleSerialize sampleLoads) sampleExt
        [("a", ⟨[⟨"z", "rule(z)"⟩, ⟨"b", "rule(b)"⟩], false⟩)] (CodegenMode.other 0),
      f.Dir = "a" →
      f.Contents =
        (if preamble (specTargetsOps sampleSerialize sampleLoads) sampleExt (CodegenMode.other 0)
              (BazelTargets.sort ⟨[⟨"z", "rule(z)"⟩, ⟨"b", "rule(b)"⟩], false⟩) ≠ "" then
            preamble (specTargetsOps sampleSerialize sampleLoads) sampleExt (CodegenMode.other 0)
              (BazelTargets.sort ⟨[⟨"z", "rule(z)"⟩, ⟨"b", "rule(b)"⟩], false⟩) ++ "\n\n"
          else preamble (specTargetsOps sampleSerialize sampleLoads) sampleExt
              (CodegenMode.other 0)
              (BazelTargets.sort ⟨[⟨"z", "rule(z)"⟩, ⟨"b", "rule(b)"⟩], false⟩)) ++
          sampleSerialize
            (BazelTargets.sort ⟨[⟨"z", "rule(z)"⟩, ⟨"b", "rule(b)"⟩], false⟩).targets) :=
  ⟨by decide, by decide,
   (createBuildFiles_targets_sorted sampleSerialize sampleLoads sampleExt
      [("a", ⟨[⟨"z", "rule(z)"⟩, ⟨"b", "rule(b)"⟩], false⟩)] (CodegenMode.other 0) (by decide)
      "a" ⟨[⟨"z", "rule(z)"⟩, ⟨"b", "rule(b)"⟩], false⟩ (by decide)).1⟩

set_option maxRecDepth 100000 in
/-- C13 as stated fails: in Bp2Build mode a collection marked as holding hand-maintained
entries whose targets need a load statement gets that load statement between the advisory
comment and the serialized targets, so its preamble is not made of comment lines only. -/
theorem createBuildFiles_handcrafted_loads_counterexample :
    (specTargetsOps sampleSerialize sampleLoads).hasHandcraftedTargets
      (BazelTargets.sort ⟨[⟨"x", "cc_library(x)"⟩], true⟩) = true ∧
    onlyCommentLines true
      (preamble (specTargetsOps sampleSerialize sampleLoads) sampleExt CodegenMode.Bp2Build
        (BazelTargets.sort ⟨[⟨"x", "cc_library(x)"⟩], true⟩)).data = false ∧
    createBuildFiles (specTargetsOps sampleSerialize sampleLoads) sampleExt
        [("a", ⟨[⟨"x", "cc_library(x)"⟩], true⟩)] CodegenMode.Bp2Build =
      [newFile "a" "BUILD.bazel"
        "# READ THIS FIRST:\n# This file was automatically generated by bp2build for the Bazel migration project.\n# Feel free to edit or test it, but do *not* check it into your version control system.\n# This file contains generated targets and handcrafted targets that are manually managed in the source tree.\nload(\"//build/bazel/rules:cc.bzl\", \"cc_library\")\n\ncc_library(x)"] := by
  decide

/-- C13 (amended): in Bp2Build mode, for a collection with `hasHandcraftedTargets()` true,
the preamble is the header, the advisory comment, a newline and then the collection's
`LoadStatements()`: no default-visibility declaration, but the load statements are emitted
as for every other collection.  The preamble is comment lines only when
`LoadStatements()` is empty. -/
theorem createBuildFiles_handcrafted_preamble {T R : Type} (ops : BazelTargetsOps T)
    (ext : Externals R) (m : List (String × T)) (hm : KeyDistinct m) (dir : String) (c : T)
    (h : (dir, c) ∈ m) (hh : ops.hasHandcraftedTargets (ops.sort c) = true) :
    preamble ops ext CodegenMode.Bp2Build (ops.sort c) =
      (bp2buildHeader ++ handcraftedComment ++ "\n") ++ ops.LoadStatements (ops.sort c) ∧
    (∀ f ∈ createBuildFiles ops ext m CodegenMode.Bp2Build, f.Dir = dir →
      f.Contents =
        (bp2buildHeader ++ handcraftedComment ++ "\n") ++ ops.LoadStatements (ops.sort c) ++
          "\n\n" ++ ops.String_ (ops.sort c)) ∧
    (∃ f ∈ createBuildFiles ops ext m CodegenMode.Bp2Build, f.Dir = dir) ∧
    (ops.LoadStatements (ops.sort c) = "" →
      onlyCommentLines true (preamble ops ext CodegenMode.Bp2Build (ops.sort c)).data = true) ∧
    (∀ t : T, ∃ front : String,
      preamble ops ext CodegenMode.Bp2Build t = front ++ ops.LoadStatements t) := by
  have hp : preamble ops ext CodegenMode.Bp2Build (ops.sort c) =
      (bp2buildHeader ++ handcraftedComment ++ "\n") ++ ops.LoadStatements (ops.sort c) := by
    rw [preamble_bp2build, hh]
    rfl
  refine ⟨hp, ?_, ⟨_, createBuildFiles_mem ops ext m _ hm dir c h, rfl⟩, ?_,
    fun t => ⟨_, preamble_bp2build ops ext t⟩⟩
  · intro f hf hd
    subst hd
    rw [createBuildFiles_contents ops ext m _ hm f hf c h,
      buildFileContents_of_ne_empty ops ext _ _ (preamble_bp2build_ne_empty ops ext _), hp]
  · intro hl
    rw [hp, hl, String.append_empty]
    exact handcrafted_preamble_onlyCommentLines

/-- Run of the amended C13 on the handcrafted collection of `sampleMap`. -/
theorem createBuildFiles_handcrafted_preamble_witness :
    KeyDistinct sampleMap ∧ ("", [⟨"x", "rule(x)", true⟩]) ∈ sampleMap ∧
    sampleOps.hasHandcraftedTargets (sampleOps.sort [⟨"x", "rule(x)", true⟩]) = true ∧
    preamble sampleOps sampleExt CodegenMode.Bp2Build
        (sampleOps.sort [⟨"x", "rule(x)", true⟩]) =
      (bp2buildHeader ++ handcraftedComment ++ "\n") ++
        sampleOps.LoadStatements (sampleOps.sort [⟨"x", "rule(x)", true⟩]) :=
  ⟨by decide, by decide, by decide,
   (createBuildFiles_handcrafted_preamble sampleOps sampleExt sampleMap (by decide) ""
      [⟨"x", "rule(x)", true⟩] (by decide) (by decide)).1⟩

/-! ## Distinct output paths -/

/-- C11 as stated fails: in QueryView mode a `buildToTargets` key `""` or `bazelRulesSubDir`
and a rule shim keyed `"providers"` or `"soong_module"` each make two files of the result
share their (Dir, Basename) pair. -/
theorem createBazelFiles_paths_counterexample :
    ¬ ((CreateBazelFiles sampleOps sampleExt () [] [("", [])] CodegenMode.QueryView).map
        (fun f => (f.Dir, f.Basename))).Nodup ∧
    ¬ ((CreateBazelFiles sampleOps sampleExt () [] [(bazelRulesSubDir, [])]
        CodegenMode.QueryView).map (fun f => (f.Dir, f.Basename))).Nodup ∧
    ¬ ((CreateBazelFiles sampleOps sampleExt () [("providers", "x = rule()")] []
        CodegenMode.QueryView).map (fun f => (f.Dir, f.Basename))).Nodup ∧
    ¬ ((CreateBazelFiles sampleOps sampleExt () [("soong_module", "x = rule()")] []
        CodegenMode.QueryView).map (fun f => (f.Dir, f.Basename))).Nodup ∧
    (CreateBazelFiles sampleOps sampleExt () [] [("", [])] CodegenMode.QueryView).get? 1 =
      some (newFile "" "BUILD.bazel" "") ∧
    ((CreateBazelFiles sampleOps sampleExt () [] [("", [])] CodegenMode.QueryView).get? 5).map
      (fun f => (f.Dir, f.Basename)) = some ("", "BUILD.bazel") := by
  decide

/-- C11 (amended): on key-distinct maps the files returned by `CreateBazelFiles` have
pairwise distinct (Dir, Basename) pairs in every mode other than QueryView, and in
QueryView mode when `buildToTargets` has neither the key `""` nor the key
`bazelRulesSubDir`, no rule shim is keyed `"providers"` or `"soong_module"`, and
`GeneratedBuildFileName` is neither `"WORKSPACE"` nor a name ending in `".bzl"`. -/
theorem createBazelFiles_paths_distinct {Cfg T R : Type} (ops : BazelTargetsOps T)
    (ext : Externals R) (cfg : Cfg) (ruleShims : List (String × R)) (m : List (String × T))
    (mode : CodegenMode) (hs : KeyDistinct ruleShims) (hm : KeyDistinct m)
    (hq : mode = CodegenMode.QueryView →
      "" ∉ mapKeys m ∧ bazelRulesSubDir ∉ mapKeys m ∧
      "providers" ∉ mapKeys ruleShims ∧ "soong_module" ∉ mapKeys ruleShims ∧
      ext.GeneratedBuildFileName ≠ "WORKSPACE" ∧
      HasSuffix ext.GeneratedBuildFileName ".bzl" = false) :
    ((CreateBazelFiles ops ext cfg ruleShims m mode).map
      (fun f => (f.Dir, f.Basename))).Nodup := by
  by_cases hmode : mode = CodegenMode.QueryView
  · obtain ⟨h1, h2, h3, h4, h5, h6⟩ := hq hmode
    subst hmode
    exact createBazelFiles_queryView_paths_nodup ops ext cfg ruleShims m hs hm h1 h2 h3 h4 h5 h6
  · rw [createBazelFiles_other_eq ops ext cfg ruleShims m mode hmode]
    exact createBuildFiles_paths_nodup ops ext m mode hm

/-- Run of the amended C11 in QueryView mode: `sampleMap` with its root directory named
`"."` instead of `""`, and the two rule shims of `sampleShims`. -/
theorem createBazelFiles_paths_distinct_witness :
    KeyDistinct sampleShims ∧
    KeyDistinct [(".", ([⟨"x", "rule(x)", true⟩] : List SampleTarget)), ("b", [])] ∧
    ((CreateBazelFiles sampleOps sampleExt () sampleShims
        [(".", [⟨"x", "rule(x)", true⟩]), ("b", [])] CodegenMode.QueryView).map
      (fun f => (f.Dir, f.Basename))).Nodup :=
  ⟨by decide, by decide,
   createBazelFiles_paths_distinct sampleOps sampleExt () sampleShims
     [(".", [⟨"x", "rule(x)", true⟩]), ("b", [])] CodegenMode.QueryView (by decide) (by decide)
     (fun _ => by decide)⟩

end Bp2build
